import Mathlib

/-
Verification of the Mobana react-native SDK attribution/conversion coordinator.

Shallow embedding of the coordinator in src/src/Mobana.ts, the persistence
layer in src/src/storage.ts and the remote client in src/api.ts.  Async
methods become pure functions threading the SDK state and the durable store
explicitly; the network and the platform are environment parameters.  The
embedding keeps the source names wherever Lean allows it.
-/

set_option linter.unusedVariables false

/-- Attribution result status, the "status" literal union of
AttributionResult in src/types.ts. -/
inductive AttrStatus
  | matched
  | no_match
  | error
deriving DecidableEq

/-- Error taxonomy, the "type" literal union of AttributionError in
src/types.ts. -/
inductive ErrorType
  | network
  | timeout
  | server
  | sdk_not_configured
  | sdk_disabled
  | unknown
deriving DecidableEq

/-- AttributionError from src/types.ts: a typed cause plus an optional
HTTP status (present only for server errors). -/
structure AttributionError where
  type : ErrorType
  status : Option Nat
deriving DecidableEq

/-- The marketing-parameter fields of an Attribution payload
(src/types.ts), without the confidence score.  The opaque deeplink
"data" payload is modelled as an optional string. -/
structure AttributionFields where
  utm_source : Option String
  utm_medium : Option String
  utm_campaign : Option String
  utm_content : Option String
  utm_term : Option String
  referrer_domain : Option String
  data : Option String
deriving DecidableEq

/-- Attribution payload from src/types.ts: marketing fields plus the
required confidence score. -/
structure Attribution extends AttributionFields where
  confidence : ℚ
deriving DecidableEq

/-- The record shape of AttributionResult from src/types.ts.  The
payload-present-iff-matched documentation is NOT baked into the type:
the fields are independent, as in the TypeScript interface. -/
structure AttributionResult where
  status : AttrStatus
  attribution : Option Attribution
  error : Option AttributionError
deriving DecidableEq

/-- CachedAttributionResult from src/types.ts: the durable attribution
record. -/
structure CachedAttributionResult where
  matched : Bool
  attribution : Option Attribution
  checkedAt : Nat
deriving DecidableEq

/-- FindResponse from src/types.ts, as received on the wire.  The
"matched" field is Option Bool: "none" models an absent or non-boolean
field (the code guards with a typeof check).  The wire attribution omits
confidence since fetchAttribution overrides it anyway. -/
structure FindResponse where
  matched : Option Bool
  attribution : Option AttributionFields
  confidence : Option ℚ
deriving DecidableEq

/-- RequestResult from src/api.ts: data is none on network, timeout or
server failure, with errorType discriminating the failure and status
carrying the HTTP code for server failures only. -/
structure RequestResult where
  data : Option FindResponse
  errorType : Option ErrorType
  status : Option Nat
deriving DecidableEq

/-- ConversionEvent from src/types.ts. -/
structure ConversionEvent where
  installId : String
  name : String
  value : Option ℚ
  timestamp : Nat
  flowSessionId : Option String
deriving DecidableEq

/-- CachedFlow from src/types.ts: durable flow-cache entry for one slug. -/
structure CachedFlow where
  versionId : String
  html : String
  css : Option String
  js : Option String
  cachedAt : Nat
deriving DecidableEq

/-- FlowConfig from src/types.ts: flow content handed to presentation. -/
structure FlowConfig where
  versionId : String
  html : String
  css : Option String
  js : Option String
deriving DecidableEq

/-- View a cached flow as presentable content (drop cachedAt). -/
def CachedFlow.toConfig (c : CachedFlow) : FlowConfig :=
  ⟨c.versionId, c.html, c.css, c.js⟩

/-- FlowFetchResponse from src/types.ts: every field optional. -/
structure FlowFetchResponse where
  cached : Option Bool
  versionId : Option String
  html : Option String
  css : Option String
  js : Option String
  error : Option String
deriving DecidableEq

/-- FlowResult from src/types.ts (the function-valued trackEvent field is
out of scope).  Error codes are carried as strings, as the code propagates
server error strings verbatim. -/
structure FlowResult where
  completed : Bool
  dismissed : Bool
  error : Option String
  data : Option String
  sessionId : Option String
deriving DecidableEq

/-- Device platform (src/device.ts). -/
inductive Platform
  | ios
  | android
deriving DecidableEq

/-- DeviceInfo from src/types.ts. -/
structure DeviceInfo where
  platform : Platform
  timezone : Option String
  screenWidth : Option Nat
  screenHeight : Option Nat
  language : Option String
deriving DecidableEq

/-- MobanaConfig after init applied its defaults (init spreads
enabled := true, debug := false over the caller config). -/
structure MobanaConfig where
  appId : String
  appKey : String
  endpoint : Option String
  enabled : Bool
  debug : Bool
  autoAttribute : Bool
deriving DecidableEq

/-
## Persistence layer (src/storage.ts), typed view

The durable AsyncStorage holds JSON strings under fixed keys.  The typed
view below models each key by its parsed content; the well-formed
read-write round trip of JSON is the identity, which is what every claim
exercises.  The raw string-keyed view needed by clearAllCachedFlows is
modelled separately further down.
-/

/-- The durable key-value store, typed by key (src/storage.ts KEYS plus
the per-slug flow namespace). -/
structure Store where
  installId : Option String
  attribution : Option CachedAttributionResult
  conversionQueue : List ConversionEvent
  flows : List (String × CachedFlow)
  localData : Option String
deriving DecidableEq

def emptyStore : Store := ⟨none, none, [], [], none⟩

/-- storage.getInstallId: return the persisted id, else persist and return
the freshly generated UUID.  The random generation (generateUUID) is an
environment input "uuid"; the storage-failure catch branch is out of the
model (the store is assumed available). -/
def getInstallId (store : Store) (uuid : String) : String × Store :=
  match store.installId with
  | some id => (id, store)
  | none => (uuid, { store with installId := some uuid })

/-- storage.getCachedResult: read of the durable attribution record. -/
def getCachedResult (store : Store) : Option CachedAttributionResult :=
  store.attribution

/-- storage.setCachedResult: write the durable attribution record with the
current timestamp. -/
def setCachedResult (store : Store) (matched : Bool)
    (attribution : Option Attribution) (now : Nat) : Store :=
  { store with attribution := some ⟨matched, attribution, now⟩ }

/-- storage.clearAttribution: removes the attribution record AND the
install id (AsyncStorage.multiRemove of both keys). -/
def clearAttribution (store : Store) : Store :=
  { store with attribution := none, installId := none }

/-- storage.queueConversion: append one event to the durable queue. -/
def queueConversion (store : Store) (event : ConversionEvent) : Store :=
  { store with conversionQueue := store.conversionQueue ++ [event] }

/-- storage.getConversionQueue. -/
def getConversionQueue (store : Store) : List ConversionEvent :=
  store.conversionQueue

/-- storage.clearConversionQueue. -/
def clearConversionQueue (store : Store) : Store :=
  { store with conversionQueue := [] }

/-- storage.getCachedFlow: read the flow-cache entry for a slug. -/
def getCachedFlow (store : Store) (slug : String) : Option CachedFlow :=
  (store.flows.find? (fun p => p.1 == slug)).map (fun p => p.2)

/-- storage.setCachedFlow: overwrite the flow-cache entry for a slug with
fresh content stamped cachedAt := now. -/
def setCachedFlow (store : Store) (slug : String) (flow : FlowConfig)
    (now : Nat) : Store :=
  { store with
    flows := (slug, ⟨flow.versionId, flow.html, flow.css, flow.js, now⟩)
      :: store.flows.filter (fun p => !(p.1 == slug)) }

/-
## Raw string-keyed store (for clearAllCachedFlows, claim C9)

clearAllCachedFlows enumerates ALL AsyncStorage keys and removes those
under the flow namespace, so it is modelled over the raw string-keyed
store, exactly as src/storage.ts operates on AsyncStorage.
-/

/-- The raw AsyncStorage: an association list of string keys and string
values. -/
def AsyncStore : Type := List (String × String)

/-- The flow-cache key namespace, FLOW_CACHE_PREFIX in src/storage.ts. -/
def FLOW_CACHE_NS : String := "@mobana:flow:"

def INSTALL_ID_KEY : String := "@mobana:install_id"
def ATTRIBUTION_KEY : String := "@mobana:attribution"
def CONVERSION_QUEUE_KEY : String := "@mobana:conversion_queue"
def LOCAL_DATA_KEY : String := "@mobana:local_data"

/-- AsyncStorage.getItem on the raw store. -/
def getItem (s : AsyncStore) (k : String) : Option String :=
  (List.find? (fun kv => kv.1 == k) s).map (fun kv => kv.2)

/-- AsyncStorage.getAllKeys. -/
def getAllKeys (s : AsyncStore) : List String :=
  List.map (fun kv => kv.1) s

/-- AsyncStorage.multiRemove: drop every entry whose key is listed. -/
def multiRemove (s : AsyncStore) (ks : List String) : AsyncStore :=
  List.filter (fun kv => !(ks.contains kv.1)) s

/-- Character-list version of the startsWith test. -/
def charsStartWith : List Char → List Char → Bool
  | _, [] => true
  | [], _ :: _ => false
  | c :: s, d :: p => c == d && charsStartWith s p

/-- String.startsWith, computed over the character lists so that proofs
can evaluate it on literals. -/
def strStartsWith (s pre : String) : Bool :=
  charsStartWith s.data pre.data

/-- storage.clearAllCachedFlows: enumerate all keys, keep those starting
with the flow namespace, and multiRemove them (skipping the call when the
list is empty). -/
def clearAllCachedFlows (s : AsyncStore) : AsyncStore :=
  let allKeys := getAllKeys s
  let flowKeys := allKeys.filter (fun k => strStartsWith k FLOW_CACHE_NS)
  if flowKeys.length > 0 then multiRemove s flowKeys else s

/-
## SDK coordinator (src/src/Mobana.ts), sequential model

One getAttribution call as a pure function of the SDK state, the durable
store and an environment.  The enabled flag is read at three points of the
call (entry, after the await of the durable read, and inside
fetchAttribution after the awaits of install id and referrer); since
setEnabled may run during those awaits, the three observations are
explicit parameters e1, e2, e3.  A run without concurrent setEnabled
passes the same value three times.  The attributionPromise deduplication
is concurrency and is modelled by the cooperative machine further down;
for the single sequential caller the promise field is none at entry and
none again at exit, so it is omitted from the sequential state.
-/

/-- The instance fields of class MobanaSDK (minus the in-flight promise,
see above). -/
structure SDKState where
  config : Option MobanaConfig
  isConfigured : Bool
  cachedAttribution : Option Attribution
  cachedAttributionResult : Option AttributionResult
  attributionChecked : Bool
deriving DecidableEq

/-- A freshly constructed MobanaSDK instance right after init(config)
assigned this.config and this.isConfigured (field initializers of the
class plus lines 117-122 of Mobana.ts). -/
def configuredState (c : MobanaConfig) : SDKState :=
  ⟨some c, true, none, none, false⟩

/-- The enabled flag of the current config (false when unconfigured,
matching the optional chaining this.config?.enabled). -/
def enabledOf (sdk : SDKState) : Bool :=
  match sdk.config with
  | some c => c.enabled
  | none => false

/-- Environment of one fetchAttribution run: the generated UUID, the
clock, the device info, the Android install referrer and the outcome of
the findAttribution network call. -/
structure FetchEnv where
  uuid : String
  now : Nat
  deviceInfo : DeviceInfo
  dacid : Option String
  find : RequestResult
deriving DecidableEq

/-- Result record of one getAttribution call: the returned value, the
updated state and store, and instrumentation counting network calls and
durable-store reads made by the call. -/
structure AttrOut where
  result : AttributionResult
  sdk : SDKState
  store : Store
  netCalls : Nat
  storeReads : Nat
deriving DecidableEq

/-- Spread of the wire attribution with the confidence merged in,
defaulting to 0 when absent (fetchAttribution lines 718-721). -/
def mergeAttribution (wa : AttributionFields) (conf : Option ℚ) : Attribution :=
  { toAttributionFields := wa, confidence := conf.getD 0 }

/-- Classification of the findAttribution outcome (fetchAttribution lines
700-745): the returned AttributionResult plus, for definitive outcomes,
the (matched, attribution) pair passed to setCachedResult.  Transient
failures and malformed shapes yield an error and no write. -/
def classifyFind (o : RequestResult) : AttributionResult × Option (Bool × Option Attribution) :=
  match o.data with
  | none =>
      (⟨.error, none, some ⟨o.errorType.getD .unknown, o.status⟩⟩, none)
  | some resp =>
      match resp.matched with
      | some true =>
          match resp.attribution with
          | some wa =>
              let attribution := mergeAttribution wa resp.confidence
              (⟨.matched, some attribution, none⟩, some (true, some attribution))
          | none =>
              (⟨.no_match, none, none⟩, some (false, none))
      | some false =>
          (⟨.no_match, none, none⟩, some (false, none))
      | none =>
          (⟨.error, none, some ⟨.unknown, none⟩⟩, none)

/-- Translation of a durable record to a result (getAttribution lines
238-240): matched with a present payload maps to "matched", anything
else to "no_match". -/
def translateCached (c : CachedAttributionResult) : AttributionResult :=
  if c.matched && c.attribution.isSome then ⟨.matched, c.attribution, none⟩
  else ⟨.no_match, none, none⟩

/-- MobanaSDK.fetchAttribution: resolve install id and (on Android) the
referrer, re-check enabled, then issue the network lookup and classify.
Returns the result, the updated store, the network-call count and the
store-read count.  The enabled observation after the awaits is e3. -/
def fetchAttribution (store : Store) (env : FetchEnv) (e3 : Bool) :
    AttributionResult × Store × Nat × Nat :=
  let p := getInstallId store env.uuid
  let store1 := p.2
  let dacid := if env.deviceInfo.platform = .android then env.dacid else none
  if e3 = false then
    (⟨.no_match, none, none⟩, store1, 0, 1)
  else
    let cls := classifyFind env.find
    let store2 := match cls.2 with
      | some w => setCachedResult store1 w.1 w.2 env.now
      | none => store1
    (cls.1, store2, 1, 1)

/-- MobanaSDK.getAttribution, sequential caller (lines 206-265): the
short-circuit ladder of configuration, enabled, in-memory cache, durable
cache, then fetch; definitive results populate the in-memory cache,
errors leave it untouched. -/
def getAttribution (sdk : SDKState) (store : Store) (env : FetchEnv)
    (e1 e2 e3 : Bool) : AttrOut :=
  if sdk.isConfigured = false ∨ sdk.config = none then
    ⟨⟨.error, none, some ⟨.sdk_not_configured, none⟩⟩, sdk, store, 0, 0⟩
  else if e1 = false then
    ⟨⟨.error, none, some ⟨.sdk_disabled, none⟩⟩, sdk, store, 0, 0⟩
  else if sdk.attributionChecked then
    ⟨sdk.cachedAttributionResult.getD ⟨.error, none, some ⟨.unknown, none⟩⟩,
      sdk, store, 0, 0⟩
  else
    let cached := getCachedResult store
    if e2 = false then
      ⟨⟨.error, none, some ⟨.sdk_disabled, none⟩⟩, sdk, store, 0, 1⟩
    else
      match cached with
      | some c =>
          let r := translateCached c
          ⟨r, { sdk with attributionChecked := true,
                         cachedAttribution := r.attribution,
                         cachedAttributionResult := some r }, store, 0, 1⟩
      | none =>
          let f := fetchAttribution store env e3
          let sdk1 :=
            if f.1.status = .error then sdk
            else { sdk with attributionChecked := true,
                            cachedAttribution := f.1.attribution,
                            cachedAttributionResult := some f.1 }
          ⟨f.1, sdk1, f.2.1, f.2.2.1, 1 + f.2.2.2⟩

/-
## Conversion tracking and queue flush (Mobana.ts lines 292-333, 763-789)
-/

/-- Environment of one trackConversion call: UUID and clock for the event,
the inner getAttribution environment, and whether the immediate send
succeeded (sendConversion collapses every transport failure to false). -/
structure TrackEnv where
  uuid : String
  now : Nat
  attrEnv : FetchEnv
  sendSuccess : Bool
deriving DecidableEq

/-- MobanaSDK.trackConversion: no-op when unconfigured or disabled, else
build the event, call getAttribution (result ignored), attempt the send
and queue the event durably on failure.  Total: never throws. -/
def trackConversion (sdk : SDKState) (store : Store) (env : TrackEnv)
    (name : String) (value : Option ℚ) (flowSessionId : Option String) :
    SDKState × Store :=
  if sdk.isConfigured = false ∨ sdk.config = none then (sdk, store)
  else if enabledOf sdk = false then (sdk, store)
  else
    let p := getInstallId store env.uuid
    let event : ConversionEvent := ⟨p.1, name, value, env.now, flowSessionId⟩
    let a := getAttribution sdk p.2 env.attrEnv
      (enabledOf sdk) (enabledOf sdk) (enabledOf sdk)
    if env.sendSuccess then (a.sdk, a.store)
    else (a.sdk, queueConversion a.store event)

/-- MobanaSDK.flushConversionQueue: read the full queue, send every entry
(outcome of entry i is ok i), clear the queue, then re-queue only the
failures one by one.  No-op when disabled or when the queue is empty. -/
def flushConversionQueue (sdk : SDKState) (store : Store) (ok : Nat → Bool) :
    Store :=
  if enabledOf sdk = false then store
  else
    let queue := getConversionQueue store
    if queue.length = 0 then store
    else
      let results := (List.range queue.length).map ok
      let store1 := clearConversionQueue store
      let failed := ((queue.zip results).filter (fun p => !p.2)).map (fun p => p.1)
      failed.foldl (fun s e => queueConversion s e) store1

/-
## Flow retrieval (Mobana.ts startFlow, lines 415-542)
-/

/-- Environment of one startFlow call: whether the provider is mounted,
UUID and clock, the inner getAttribution environment, the fetchFlow
outcome (none models a transport failure) and the FlowResult delivered by
the presentation gateway callback. -/
structure FlowEnv where
  providerMounted : Bool
  uuid : String
  now : Nat
  attrEnv : FetchEnv
  response : Option FlowFetchResponse
  presentOutcome : FlowResult
deriving DecidableEq

/-- Result record of one startFlow call: the returned FlowResult, the
updated state and store, and the content handed to the presentation
gateway (none when nothing was presented). -/
structure FlowOut where
  result : FlowResult
  sdk : SDKState
  store : Store
  presented : Option FlowConfig
deriving DecidableEq

/-- JavaScript truthiness of an optional string: present and non-empty. -/
def strTruthy (s : Option String) : Bool :=
  !(s.getD "").isEmpty

/-- JavaScript truthiness of an optional boolean. -/
def optTruthy (b : Option Bool) : Bool :=
  b.getD false

/-- MobanaSDK.startFlow: the guard ladder, then install id, best-effort
attribution, the cached-flow read and the conditional fetch; the response
is classified into stale-cache fallback, propagated server error,
validated cache, fresh content (persisted) or server-error. -/
def startFlow (sdk : SDKState) (store : Store) (env : FlowEnv) (slug : String) :
    FlowOut :=
  if sdk.isConfigured = false ∨ sdk.config = none then
    ⟨⟨false, true, some "SDK_NOT_CONFIGURED", none, none⟩, sdk, store, none⟩
  else if enabledOf sdk = false then
    ⟨⟨false, true, some "SDK_NOT_CONFIGURED", none, none⟩, sdk, store, none⟩
  else if env.providerMounted = false then
    ⟨⟨false, true, some "PROVIDER_NOT_MOUNTED", none, none⟩, sdk, store, none⟩
  else
    let p := getInstallId store env.uuid
    let a := getAttribution sdk p.2 env.attrEnv
      (enabledOf sdk) (enabledOf sdk) (enabledOf sdk)
    let cached := getCachedFlow a.store slug
    match env.response with
    | none =>
        match cached with
        | some c => ⟨env.presentOutcome, a.sdk, a.store, some c.toConfig⟩
        | none => ⟨⟨false, true, some "NETWORK_ERROR", none, none⟩, a.sdk, a.store, none⟩
    | some resp =>
        if strTruthy resp.error then
          ⟨⟨false, true, resp.error, none, none⟩, a.sdk, a.store, none⟩
        else
          match cached, optTruthy resp.cached with
          | some c, true =>
              ⟨env.presentOutcome, a.sdk, a.store, some c.toConfig⟩
          | _, _ =>
              if strTruthy resp.versionId && strTruthy resp.html then
                let cfg : FlowConfig :=
                  ⟨resp.versionId.getD "", resp.html.getD "", resp.css, resp.js⟩
                ⟨env.presentOutcome, a.sdk, setCachedFlow a.store slug cfg env.now,
                  some cfg⟩
              else
                ⟨⟨false, true, some "SERVER_ERROR", none, none⟩, a.sdk, a.store, none⟩

/-
## Cooperative interleaving machine for getAttribution (claim C1)

The deduplication contract is about the interleaving of several
getAttribution callers on one coordinator.  The execution model is the
single-threaded cooperative scheduling of section 5 of the specification:
each caller is a task; a task runs atomically from one asynchronous
suspension point (await of the durable store, of the referrer, of the
network, of the shared promise) to the next; the scheduler picks any task
to resume at each step.  Reads and writes of the shared state happen in
the atomic block in which the code performs them.

The suspension points of getAttribution (Mobana.ts):
  entry      - synchronous prefix: guards, in-memory cache check, then
               the await of getCachedResult suspends;
  cacheRead  - resumed from the durable read: re-check enabled, durable
               hit, or join/create the in-flight promise.  Creating it
               runs fetchAttribution up to its first await (getInstallId)
               and stores the promise (line 252);
  pipe*      - the fetchAttribution pipeline of the caller that created
               the promise: install id, Android referrer, network call,
               durable write, then promise resolution;
  leaderResume - that caller resumed from awaiting its own promise:
               clears the in-flight marker and caches definitive results
               (lines 254-264);
  follower   - another caller returned the shared promise (lines 248-250):
               it finishes with the promise value and touches nothing.

The machine keeps the coordinator configured throughout and never runs a
concurrent setEnabled (the flag stays true): C1 is about deduplication,
claims C5 covers the flag.
-/

/-- Program counter of one getAttribution caller in the cooperative
machine. -/
inductive TaskPC
  | entry
  | cacheRead
  | follower (pid : Nat)
  | pipeInstall (pid : Nat)
  | pipeReferrer (pid : Nat)
  | pipeNet (pid : Nat) (reqIdx : Nat)
  | pipePersist (pid : Nat) (w : Bool × Option Attribution) (r : AttributionResult)
  | leaderResume (pid : Nat) (r : AttributionResult)
  | done (r : AttributionResult)
deriving DecidableEq

/-- Shared state of the machine: the durable store, the coordinator
fields, the table of created promises (none while pending) and the count
of attribution network requests issued so far. -/
structure MShared where
  store : Store
  isConfigured : Bool
  enabled : Bool
  attributionChecked : Bool
  cachedAttribution : Option Attribution
  cachedAttributionResult : Option AttributionResult
  attributionPromise : Option Nat
  promises : List (Option AttributionResult)
  requests : Nat
deriving DecidableEq

/-- A machine configuration: shared state plus the task list. -/
structure MCfg where
  shared : MShared
  tasks : List TaskPC
deriving DecidableEq

/-- Machine environment: the i-th network request issued gets outcome
"outcome i"; uuid, clock and platform as in the sequential model. -/
structure MEnv where
  uuid : String
  now : Nat
  platform : Platform
  outcome : Nat → RequestResult

/-- Resolve promise pid with value r. -/
def resolvePromise (ps : List (Option AttributionResult)) (pid : Nat)
    (r : AttributionResult) : List (Option AttributionResult) :=
  ps.set pid (some r)

/-- One atomic block of one task: from its current suspension point to
the next.  Mirrors the corresponding source lines of Mobana.ts. -/
def stepTask (env : MEnv) (s : MShared) : TaskPC → MShared × TaskPC
  | .entry =>
      -- lines 209-224: guards and the in-memory fast path, then the
      -- durable read suspends
      if s.isConfigured = false then
        (s, .done ⟨.error, none, some ⟨.sdk_not_configured, none⟩⟩)
      else if s.enabled = false then
        (s, .done ⟨.error, none, some ⟨.sdk_disabled, none⟩⟩)
      else if s.attributionChecked then
        (s, .done (s.cachedAttributionResult.getD ⟨.error, none, some ⟨.unknown, none⟩⟩))
      else
        (s, .cacheRead)
  | .cacheRead =>
      -- lines 227-252: resumed from getCachedResult
      let cached := getCachedResult s.store
      if s.enabled = false then
        (s, .done ⟨.error, none, some ⟨.sdk_disabled, none⟩⟩)
      else
        match cached with
        | some c =>
            let r := translateCached c
            ({ s with attributionChecked := true,
                      cachedAttribution := r.attribution,
                      cachedAttributionResult := some r }, .done r)
        | none =>
            match s.attributionPromise with
            | some pid => (s, .follower pid)
            | none =>
                -- line 252: fetchAttribution runs to its first await and
                -- the resulting promise is stored
                let pid := s.promises.length
                ({ s with promises := s.promises ++ [none],
                          attributionPromise := some pid }, .pipeInstall pid)
  | .follower pid =>
      -- lines 248-250: await of the shared promise
      match s.promises.getD pid none with
      | some r => (s, .done r)
      | none => (s, .follower pid)
  | .pipeInstall pid =>
      -- fetchAttribution resumed from getInstallId; on iOS the enabled
      -- re-check and the network call follow in the same block, on
      -- Android the referrer await suspends first
      let p := getInstallId s.store env.uuid
      let s1 := { s with store := p.2 }
      if env.platform = .android then
        (s1, .pipeReferrer pid)
      else if s1.enabled = false then
        ({ s1 with promises := resolvePromise s1.promises pid ⟨.no_match, none, none⟩ },
          .leaderResume pid ⟨.no_match, none, none⟩)
      else
        ({ s1 with requests := s1.requests + 1 }, .pipeNet pid s1.requests)
  | .pipeReferrer pid =>
      -- resumed from getInstallReferrer: enabled re-check, then the
      -- network call is issued and awaited
      if s.enabled = false then
        ({ s with promises := resolvePromise s.promises pid ⟨.no_match, none, none⟩ },
          .leaderResume pid ⟨.no_match, none, none⟩)
      else
        ({ s with requests := s.requests + 1 }, .pipeNet pid s.requests)
  | .pipeNet pid reqIdx =>
      -- resumed from findAttribution with the response: classify; error
      -- outcomes return (resolving the promise), definitive outcomes
      -- suspend at the setCachedResult write
      let cls := classifyFind (env.outcome reqIdx)
      match cls.2 with
      | none =>
          ({ s with promises := resolvePromise s.promises pid cls.1 },
            .leaderResume pid cls.1)
      | some w => (s, .pipePersist pid w cls.1)
  | .pipePersist pid w r =>
      -- resumed from setCachedResult: the write has been applied and
      -- fetchAttribution returns, resolving the promise
      ({ s with store := setCachedResult s.store w.1 w.2 env.now,
                promises := resolvePromise s.promises pid r },
        .leaderResume pid r)
  | .leaderResume pid r =>
      -- lines 254-264: the creating caller resumed from its own promise
      let s1 := { s with attributionPromise := none }
      if r.status = .error then (s1, .done r)
      else
        ({ s1 with attributionChecked := true,
                   cachedAttribution := r.attribution,
                   cachedAttributionResult := some r }, .done r)
  | .done r => (s, .done r)

/-- Scheduler step: resume task i (no-op when i is out of range). -/
def mstep (env : MEnv) (c : MCfg) (i : Nat) : MCfg :=
  match c.tasks[i]? with
  | none => c
  | some pc =>
      let p := stepTask env c.shared pc
      ⟨p.1, c.tasks.set i p.2⟩

/-- Run a schedule: the list of task indices resumed, in order. -/
def mrun (env : MEnv) (c : MCfg) (sched : List Nat) : MCfg :=
  sched.foldl (mstep env) c

/-- Initial configuration of claim C1: a configured, enabled coordinator
with no definitive result in memory, no operation in flight, a durable
store holding no attribution record, and n callers about to start. -/
def initCfg (store : Store) (n : Nat) : MCfg :=
  ⟨⟨store, true, true, false, none, none, none, [], 0⟩,
    List.replicate n .entry⟩

/-- The result every caller should receive: the classification of the
first (and only) network request outcome. -/
def canonicalResult (env : MEnv) : AttributionResult :=
  (classifyFind (env.outcome 0)).1

/-
## Claim C7: install identity
-/

/-- C7: repeated getInstallId calls, and calls from fresh coordinator
instances over the same durable store, all return the identical
identifier: it is generated once on first access, persisted durably, and
never regenerated except by explicit reset (clearAttribution removes it,
after which a fresh one is generated on next access). -/
theorem c7_installId_stable (store : Store) (u1 u2 u3 : String) :
    (getInstallId ((getInstallId store u1).2) u2).1 = (getInstallId store u1).1
    ∧ (getInstallId ((getInstallId store u1).2) u2).2 = (getInstallId store u1).2
    ∧ ((getInstallId store u1).2).installId = some (getInstallId store u1).1
    ∧ (clearAttribution ((getInstallId store u1).2)).installId = none
    ∧ (getInstallId (clearAttribution ((getInstallId store u1).2)) u3).1 = u3 := by
  cases h : store.installId <;>
    simp [getInstallId, clearAttribution, h]


/-
## Claim C9: clearAllCachedFlows removes exactly the flow-cache keys
-/

theorem getItem_cons (a : String × String) (t : AsyncStore) (k : String) :
    getItem (a :: t) k = if a.1 == k then some a.2 else getItem t k := by
  cases h : a.1 == k <;> simp [getItem, List.find?_cons, h]

theorem clearAllCachedFlows_eq_filter (s : AsyncStore) :
    clearAllCachedFlows s =
      List.filter (fun kv => !(strStartsWith kv.1 FLOW_CACHE_NS)) s := by
  simp only [clearAllCachedFlows, getAllKeys, multiRemove]
  by_cases hlen :
      (List.filter (fun k => strStartsWith k FLOW_CACHE_NS)
        (List.map (fun kv => kv.1) s)).length > 0
  · rw [if_pos hlen]
    apply List.filter_congr
    intro kv hmem
    cases hsw : strStartsWith kv.1 FLOW_CACHE_NS with
    | false =>
        have hnot : kv.1 ∉ List.filter (fun k => strStartsWith k FLOW_CACHE_NS)
            (List.map (fun kv => kv.1) s) := by
          intro hin
          have hp := (List.mem_filter.mp hin).2
          rw [hsw] at hp
          exact Bool.false_ne_true hp
        have hc : (List.filter (fun k => strStartsWith k FLOW_CACHE_NS)
            (List.map (fun kv => kv.1) s)).contains kv.1 = false := by
          rw [Bool.eq_false_iff]
          intro he
          exact hnot (List.elem_iff.mp he)
        rw [hc]
    | true =>
        have hmemf : kv.1 ∈ List.filter (fun k => strStartsWith k FLOW_CACHE_NS)
            (List.map (fun kv => kv.1) s) :=
          List.mem_filter.mpr ⟨List.mem_map.mpr ⟨kv, hmem, rfl⟩, hsw⟩
        have hc : (List.filter (fun k => strStartsWith k FLOW_CACHE_NS)
            (List.map (fun kv => kv.1) s)).contains kv.1 = true :=
          List.elem_iff.mpr hmemf
        rw [hc]
  · rw [if_neg hlen]
    have hempty : List.filter (fun k => strStartsWith k FLOW_CACHE_NS)
        (List.map (fun kv => kv.1) s) = [] := by
      rcases Nat.eq_zero_or_pos (List.filter (fun k => strStartsWith k FLOW_CACHE_NS)
          (List.map (fun kv => kv.1) s)).length with h0 | hpos
      · exact List.length_eq_zero.mp h0
      · exact absurd hpos hlen
    have hall := List.filter_eq_nil_iff.mp hempty
    symm
    apply List.filter_eq_self.mpr
    intro kv hmem
    have hne := hall kv.1 (List.mem_map.mpr ⟨kv, hmem, rfl⟩)
    cases hsw : strStartsWith kv.1 FLOW_CACHE_NS with
    | false => rfl
    | true => exact absurd hsw hne

theorem getItem_filter_keep (s : AsyncStore) (k : String)
    (h : strStartsWith k FLOW_CACHE_NS = false) :
    getItem (List.filter (fun kv => !(strStartsWith kv.1 FLOW_CACHE_NS)) s) k
      = getItem s k := by
  induction s with
  | nil => rfl
  | cons a t ih =>
      by_cases ha : (a.1 == k) = true
      · have hak : a.1 = k := eq_of_beq ha
        have hsw : strStartsWith a.1 FLOW_CACHE_NS = false := by rw [hak]; exact h
        simp [List.filter_cons, hsw, getItem_cons, ha]
      · have ha' : (a.1 == k) = false := Bool.eq_false_iff.mpr ha
        cases hsw : strStartsWith a.1 FLOW_CACHE_NS with
        | false => simp [List.filter_cons, hsw, getItem_cons, ha', ih]
        | true => simp [List.filter_cons, hsw, getItem_cons, ha', ih]

theorem getItem_filter_drop (s : AsyncStore) (k : String)
    (h : strStartsWith k FLOW_CACHE_NS = true) :
    getItem (List.filter (fun kv => !(strStartsWith kv.1 FLOW_CACHE_NS)) s) k
      = none := by
  induction s with
  | nil => rfl
  | cons a t ih =>
      cases hsw : strStartsWith a.1 FLOW_CACHE_NS with
      | true => simp [List.filter_cons, hsw, ih]
      | false =>
          have ha : (a.1 == k) = false := by
            rw [Bool.eq_false_iff]
            intro he
            have hak : a.1 = k := eq_of_beq he
            rw [hak, h] at hsw
            exact Bool.noConfusion hsw
          simp [List.filter_cons, hsw, getItem_cons, ha, ih]

/-- C9: for every state of the durable store, clearAllCachedFlows removes
exactly the keys under the flow-cache namespace and leaves every other
durable key (install id, attribution record, conversion queue, local-data
blob, and any unrelated key) unchanged. -/
theorem c9_clearAllCachedFlows_frame (s : AsyncStore) :
    clearAllCachedFlows s
        = List.filter (fun kv => !(strStartsWith kv.1 FLOW_CACHE_NS)) s
    ∧ (∀ k : String, strStartsWith k FLOW_CACHE_NS = false →
        getItem (clearAllCachedFlows s) k = getItem s k)
    ∧ (∀ k : String, strStartsWith k FLOW_CACHE_NS = true →
        getItem (clearAllCachedFlows s) k = none)
    ∧ getItem (clearAllCachedFlows s) INSTALL_ID_KEY = getItem s INSTALL_ID_KEY
    ∧ getItem (clearAllCachedFlows s) ATTRIBUTION_KEY = getItem s ATTRIBUTION_KEY
    ∧ getItem (clearAllCachedFlows s) CONVERSION_QUEUE_KEY
        = getItem s CONVERSION_QUEUE_KEY
    ∧ getItem (clearAllCachedFlows s) LOCAL_DATA_KEY = getItem s LOCAL_DATA_KEY := by
  have hf := clearAllCachedFlows_eq_filter s
  refine ⟨hf, ?_, ?_, ?_, ?_, ?_, ?_⟩
  · intro k hk
    rw [hf]
    exact getItem_filter_keep s k hk
  · intro k hk
    rw [hf]
    exact getItem_filter_drop s k hk
  · rw [hf]; exact getItem_filter_keep s INSTALL_ID_KEY (by decide)
  · rw [hf]; exact getItem_filter_keep s ATTRIBUTION_KEY (by decide)
  · rw [hf]; exact getItem_filter_keep s CONVERSION_QUEUE_KEY (by decide)
  · rw [hf]; exact getItem_filter_keep s LOCAL_DATA_KEY (by decide)

/-- Witness for C9 at a concrete store holding one key of every kind. -/
theorem c9_witness :
    getItem (clearAllCachedFlows
        [(INSTALL_ID_KEY, "iid"), ("@mobana:flow:onboarding", "cached"),
          (LOCAL_DATA_KEY, "blob")]) "@mobana:flow:onboarding" = none
    ∧ getItem (clearAllCachedFlows
        [(INSTALL_ID_KEY, "iid"), ("@mobana:flow:onboarding", "cached"),
          (LOCAL_DATA_KEY, "blob")]) INSTALL_ID_KEY
      = getItem [(INSTALL_ID_KEY, "iid"), ("@mobana:flow:onboarding", "cached"),
          (LOCAL_DATA_KEY, "blob")] INSTALL_ID_KEY :=
  ⟨(c9_clearAllCachedFlows_frame _).2.2.1 "@mobana:flow:onboarding" (by decide),
    (c9_clearAllCachedFlows_frame _).2.2.2.1⟩

/-
## Invariants of the sequential getAttribution
-/

theorem getInstallId_attribution (store : Store) (u : String) :
    (getInstallId store u).2.attribution = store.attribution := by
  cases h : store.installId <;> simp [getInstallId, h]

theorem getInstallId_queue (store : Store) (u : String) :
    (getInstallId store u).2.conversionQueue = store.conversionQueue := by
  cases h : store.installId <;> simp [getInstallId, h]

theorem getInstallId_flows (store : Store) (u : String) :
    (getInstallId store u).2.flows = store.flows := by
  cases h : store.installId <;> simp [getInstallId, h]

/-- getAttribution never changes the configuration, the conversion queue
or the flow cache. -/
theorem getAttribution_frame (sdk : SDKState) (store : Store) (env : FetchEnv)
    (e1 e2 e3 : Bool) :
    (getAttribution sdk store env e1 e2 e3).sdk.config = sdk.config
    ∧ (getAttribution sdk store env e1 e2 e3).sdk.isConfigured = sdk.isConfigured
    ∧ (getAttribution sdk store env e1 e2 e3).store.conversionQueue
        = store.conversionQueue
    ∧ (getAttribution sdk store env e1 e2 e3).store.flows = store.flows := by
  cases hinst : store.installId <;>
    simp [getAttribution, fetchAttribution, getCachedResult, getInstallId,
      setCachedResult, hinst] <;>
    repeat' split <;>
    simp_all

/-
## Claim C2: transient failures are never cached and retry next call
-/

/-- C2: whenever the attribution lookup fails (no data: network error,
timeout or server error status; or a malformed response shape), the call
returns a result with status "error", neither the durable attribution
record nor the in-memory definitive cache is written (the SDK state is
unchanged), and the next getAttribution call issues a new network
request. -/
theorem c2_error_not_cached_retries (sdk : SDKState) (store : Store)
    (env : FetchEnv) (c : MobanaConfig)
    (hconf : sdk.isConfigured = true) (hc : sdk.config = some c)
    (hchk : sdk.attributionChecked = false)
    (hstore : store.attribution = none)
    (hfail : env.find.data = none
      ∨ ∃ resp, env.find.data = some resp ∧ resp.matched = none) :
    (getAttribution sdk store env true true true).result.status = .error
    ∧ (getAttribution sdk store env true true true).store.attribution = none
    ∧ (getAttribution sdk store env true true true).sdk = sdk
    ∧ (getAttribution sdk store env true true true).netCalls = 1
    ∧ (∀ env2 : FetchEnv,
        (getAttribution (getAttribution sdk store env true true true).sdk
          (getAttribution sdk store env true true true).store
          env2 true true true).netCalls = 1) := by
  have hcls : (classifyFind env.find).1.status = .error
      ∧ (classifyFind env.find).2 = none := by
    rcases hfail with h | ⟨resp, hr, hm⟩
    · simp [classifyFind, h]
    · simp [classifyFind, hr, hm]
  cases hinst : store.installId with
  | none =>
      refine ⟨?_, ?_, ?_, ?_, ?_⟩ <;>
        simp_all [getAttribution, fetchAttribution, getCachedResult,
          getInstallId, hconf, hc, hchk, hstore, hinst, hcls.1, hcls.2]
  | some iid =>
      refine ⟨?_, ?_, ?_, ?_, ?_⟩ <;>
        simp_all [getAttribution, fetchAttribution, getCachedResult,
          getInstallId, hconf, hc, hchk, hstore, hinst, hcls.1, hcls.2]

/-- Witness for C2: a configured SDK, empty caches, network failure. -/
theorem c2_witness :
    (getAttribution (configuredState ⟨"app", "key", none, true, false, true⟩)
      emptyStore
      ⟨"u1", 7, ⟨.ios, none, none, none, none⟩, none, ⟨none, some .network, none⟩⟩
      true true true).result.status = .error
    ∧ (getAttribution (configuredState ⟨"app", "key", none, true, false, true⟩)
      emptyStore
      ⟨"u1", 7, ⟨.ios, none, none, none, none⟩, none, ⟨none, some .network, none⟩⟩
      true true true).store.attribution = none := by
  have h := c2_error_not_cached_retries
    (configuredState ⟨"app", "key", none, true, false, true⟩) emptyStore
    ⟨"u1", 7, ⟨.ios, none, none, none, none⟩, none, ⟨none, some .network, none⟩⟩
    ⟨"app", "key", none, true, false, true⟩
    (by decide) rfl (by decide) rfl (Or.inl rfl)
  exact ⟨h.1, h.2.1⟩

/-
## Claim C3: a no-match response is persisted and never re-queried
-/

/-- C3: when the server responds matched = false, getAttribution persists
a durable record with matched = false, sets the in-memory cache, and
returns status "no_match"; every fresh coordinator instance subsequently
created over the same durable store returns "no_match" from the durable
cache with zero network requests. -/
theorem c3_no_match_persisted (sdk : SDKState) (store : Store)
    (env : FetchEnv) (c : MobanaConfig) (resp : FindResponse)
    (hconf : sdk.isConfigured = true) (hc : sdk.config = some c)
    (hchk : sdk.attributionChecked = false)
    (hstore : store.attribution = none)
    (hresp : env.find.data = some resp) (hm : resp.matched = some false) :
    (getAttribution sdk store env true true true).result = ⟨.no_match, none, none⟩
    ∧ (getAttribution sdk store env true true true).store.attribution
        = some ⟨false, none, env.now⟩
    ∧ (getAttribution sdk store env true true true).sdk.attributionChecked = true
    ∧ (getAttribution sdk store env true true true).sdk.cachedAttributionResult
        = some ⟨.no_match, none, none⟩
    ∧ (∀ (c2 : MobanaConfig) (env2 : FetchEnv),
        (getAttribution (configuredState c2)
            (getAttribution sdk store env true true true).store
            env2 true true true).result = ⟨.no_match, none, none⟩
        ∧ (getAttribution (configuredState c2)
            (getAttribution sdk store env true true true).store
            env2 true true true).netCalls = 0) := by
  have hcls : classifyFind env.find
      = (⟨.no_match, none, none⟩, some (false, none)) := by
    simp [classifyFind, hresp, hm]
  have hout : (getAttribution sdk store env true true true).store.attribution
      = some ⟨false, none, env.now⟩
      ∧ (getAttribution sdk store env true true true).result
        = ⟨.no_match, none, none⟩
      ∧ (getAttribution sdk store env true true true).sdk.attributionChecked = true
      ∧ (getAttribution sdk store env true true true).sdk.cachedAttributionResult
        = some ⟨.no_match, none, none⟩ := by
    cases hinst : store.installId <;>
      refine ⟨?_, ?_, ?_, ?_⟩ <;>
        simp_all [getAttribution, fetchAttribution, getCachedResult,
          getInstallId, setCachedResult, hcls, translateCached]
  refine ⟨hout.2.1, hout.1, hout.2.2.1, hout.2.2.2, ?_⟩
  intro c2 env2
  have h1 := hout.1
  generalize hst : (getAttribution sdk store env true true true).store = st at h1 ⊢
  constructor <;>
    simp [getAttribution, getCachedResult, configuredState, h1,
      translateCached]

/-- Witness for C3: concrete unmatched server response, then a fresh
instance reads the durable record without network. -/
theorem c3_witness :
    (getAttribution (configuredState ⟨"app", "key", none, true, false, true⟩)
      emptyStore
      ⟨"u1", 7, ⟨.ios, none, none, none, none⟩, none,
        ⟨some ⟨some false, none, none⟩, none, none⟩⟩
      true true true).result = ⟨.no_match, none, none⟩
    ∧ (getAttribution (configuredState ⟨"fresh", "key2", none, true, false, true⟩)
        (getAttribution (configuredState ⟨"app", "key", none, true, false, true⟩)
          emptyStore
          ⟨"u1", 7, ⟨.ios, none, none, none, none⟩, none,
            ⟨some ⟨some false, none, none⟩, none, none⟩⟩
          true true true).store
        ⟨"u2", 9, ⟨.android, none, none, none, none⟩, some "dacid",
          ⟨none, some .network, none⟩⟩
        true true true).netCalls = 0 := by
  have h := c3_no_match_persisted
    (configuredState ⟨"app", "key", none, true, false, true⟩) emptyStore
    ⟨"u1", 7, ⟨.ios, none, none, none, none⟩, none,
      ⟨some ⟨some false, none, none⟩, none, none⟩⟩
    ⟨"app", "key", none, true, false, true⟩
    ⟨some false, none, none⟩
    (by decide) rfl (by decide) rfl rfl rfl
  exact ⟨h.1, (h.2.2.2.2 ⟨"fresh", "key2", none, true, false, true⟩
    ⟨"u2", 9, ⟨.android, none, none, none, none⟩, some "dacid",
      ⟨none, some .network, none⟩⟩).2⟩

/-
## Claim C4: definitive results are served from memory afterwards
-/

/-- After any getAttribution call, either the result is an error, or the
instance holds the result in its definitive in-memory cache and is still
configured. -/
theorem getAttribution_definitive_state (sdk : SDKState) (store : Store)
    (env : FetchEnv) (e1 e2 e3 : Bool) :
    (getAttribution sdk store env e1 e2 e3).result.status = .error
    ∨ ((getAttribution sdk store env e1 e2 e3).sdk.isConfigured = true
        ∧ (getAttribution sdk store env e1 e2 e3).sdk.config ≠ none
        ∧ (getAttribution sdk store env e1 e2 e3).sdk.attributionChecked = true
        ∧ (getAttribution sdk store env e1 e2 e3).sdk.cachedAttributionResult
            = some (getAttribution sdk store env e1 e2 e3).result) := by
  by_cases h1 : sdk.isConfigured = false ∨ sdk.config = none
  · left; simp [getAttribution, h1]
  · have hconf : sdk.isConfigured = true := by
      rcases not_or.mp h1 with ⟨ha, _⟩
      exact Bool.not_eq_false _ ▸ (Bool.of_not_eq_false ha)
    have hcfg : sdk.config ≠ none := (not_or.mp h1).2
    by_cases h2 : e1 = false
    · left; simp [getAttribution, h1, h2]
    · by_cases h3 : sdk.attributionChecked = true
      · cases hcr : sdk.cachedAttributionResult with
        | none => left; simp [getAttribution, h1, h2, h3, hcr]
        | some r =>
            right
            simp [getAttribution, h1, h2, h3, hcr, hconf, hcfg]
      · by_cases h4 : e2 = false
        · left
          simp only [getAttribution, if_neg h1, if_neg h2]
          rw [if_neg h3]
          simp [h4]
        · cases hca : store.attribution with
          | some cr =>
              right
              simp only [getAttribution, if_neg h1, if_neg h2]
              rw [if_neg h3]
              simp [h4, getCachedResult, hca, hconf, hcfg]
          | none =>
              by_cases h5 : (fetchAttribution store env e3).1.status = .error
              · left
                simp only [getAttribution, if_neg h1, if_neg h2]
                rw [if_neg h3]
                simp [h4, getCachedResult, hca, h5]
              · right
                simp only [getAttribution, if_neg h1, if_neg h2]
                rw [if_neg h3]
                simp [h4, getCachedResult, hca, h5, hconf, hcfg]

/-- C4: after a getAttribution call returns a definitive result (matched
or no_match), every later call on the same instance (observing enabled)
returns the equal result with zero network calls and zero durable-store
reads, leaving state and store untouched. -/
theorem c4_definitive_cached_in_memory (sdk : SDKState) (store : Store)
    (env : FetchEnv) (e1 e2 e3 : Bool) (env2 : FetchEnv) (e2' e3' : Bool)
    (hdef : (getAttribution sdk store env e1 e2 e3).result.status ≠ .error) :
    getAttribution (getAttribution sdk store env e1 e2 e3).sdk
        (getAttribution sdk store env e1 e2 e3).store env2 true e2' e3'
      = ⟨(getAttribution sdk store env e1 e2 e3).result,
          (getAttribution sdk store env e1 e2 e3).sdk,
          (getAttribution sdk store env e1 e2 e3).store, 0, 0⟩ := by
  rcases getAttribution_definitive_state sdk store env e1 e2 e3 with
    herr | ⟨hconf, hcfg, hchk, hcache⟩
  · exact absurd herr hdef
  · generalize hsdk : (getAttribution sdk store env e1 e2 e3).sdk = sdk2 at *
    generalize hres : (getAttribution sdk store env e1 e2 e3).result = r at *
    simp [getAttribution, hconf, hcfg, hchk, hcache]

/-- Witness for C4: first call resolves no_match from the durable cache,
the second call is served from memory with no network and no reads. -/
theorem c4_witness :
    getAttribution
        (getAttribution (configuredState ⟨"app", "key", none, true, false, true⟩)
          { emptyStore with attribution := some ⟨false, none, 3⟩ }
          ⟨"u1", 7, ⟨.ios, none, none, none, none⟩, none,
            ⟨none, some .network, none⟩⟩ true true true).sdk
        (getAttribution (configuredState ⟨"app", "key", none, true, false, true⟩)
          { emptyStore with attribution := some ⟨false, none, 3⟩ }
          ⟨"u1", 7, ⟨.ios, none, none, none, none⟩, none,
            ⟨none, some .network, none⟩⟩ true true true).store
        ⟨"u2", 8, ⟨.android, none, none, none, none⟩, none,
          ⟨none, some .timeout, none⟩⟩ true true true
      = ⟨(getAttribution (configuredState ⟨"app", "key", none, true, false, true⟩)
            { emptyStore with attribution := some ⟨false, none, 3⟩ }
            ⟨"u1", 7, ⟨.ios, none, none, none, none⟩, none,
              ⟨none, some .network, none⟩⟩ true true true).result,
          (getAttribution (configuredState ⟨"app", "key", none, true, false, true⟩)
            { emptyStore with attribution := some ⟨false, none, 3⟩ }
            ⟨"u1", 7, ⟨.ios, none, none, none, none⟩, none,
              ⟨none, some .network, none⟩⟩ true true true).sdk,
          (getAttribution (configuredState ⟨"app", "key", none, true, false, true⟩)
            { emptyStore with attribution := some ⟨false, none, 3⟩ }
            ⟨"u1", 7, ⟨.ios, none, none, none, none⟩, none,
              ⟨none, some .network, none⟩⟩ true true true).store, 0, 0⟩ :=
  c4_definitive_cached_in_memory
    (configuredState ⟨"app", "key", none, true, false, true⟩)
    { emptyStore with attribution := some ⟨false, none, 3⟩ }
    ⟨"u1", 7, ⟨.ios, none, none, none, none⟩, none, ⟨none, some .network, none⟩⟩
    true true true
    ⟨"u2", 8, ⟨.android, none, none, none, none⟩, none, ⟨none, some .timeout, none⟩⟩
    true true (by decide)

/-
## Claim C5: the enabled flag at the three check points of getAttribution
-/

/-- C5 (divergence witness): on a configured, enabled coordinator with
empty caches, when the enabled flag is observed false at the check point
inside the in-progress operation (after awaiting the install id and
referrer, e3 = false), the call makes no network request — but instead of
the disabled-error result the claim describes, it returns status
"no_match" (not an error), and it marks the in-memory definitive cache
even though no server response was received, contradicting the
attributionChecked field comment in Mobana.ts (lines 77-79). -/
theorem c5_disabled_midflight_divergence :
    (getAttribution (configuredState ⟨"a1b2c3d4", "key", none, true, false, true⟩)
        emptyStore
        ⟨"u1", 5, ⟨.ios, none, none, none, none⟩, none, ⟨none, some .network, none⟩⟩
        true true false).result = ⟨.no_match, none, none⟩
    ∧ (getAttribution (configuredState ⟨"a1b2c3d4", "key", none, true, false, true⟩)
        emptyStore
        ⟨"u1", 5, ⟨.ios, none, none, none, none⟩, none, ⟨none, some .network, none⟩⟩
        true true false).result.status ≠ .error
    ∧ (getAttribution (configuredState ⟨"a1b2c3d4", "key", none, true, false, true⟩)
        emptyStore
        ⟨"u1", 5, ⟨.ios, none, none, none, none⟩, none, ⟨none, some .network, none⟩⟩
        true true false).netCalls = 0
    ∧ (getAttribution (configuredState ⟨"a1b2c3d4", "key", none, true, false, true⟩)
        emptyStore
        ⟨"u1", 5, ⟨.ios, none, none, none, none⟩, none, ⟨none, some .network, none⟩⟩
        true true false).sdk.attributionChecked = true := by
  refine ⟨?_, ?_, ?_, ?_⟩ <;> decide

/-- The conforming part of C5: at the entry check point and at the check
point after the durable-cache read, an observed-false enabled flag yields
the typed disabled error and no network request. -/
theorem c5_disabled_entry_conforms (sdk : SDKState) (store : Store)
    (env : FetchEnv) (c : MobanaConfig) (e2 e3 : Bool)
    (hconf : sdk.isConfigured = true) (hc : sdk.config = some c)
    (hchk : sdk.attributionChecked = false) :
    ((getAttribution sdk store env false e2 e3).result
        = ⟨.error, none, some ⟨.sdk_disabled, none⟩⟩
      ∧ (getAttribution sdk store env false e2 e3).netCalls = 0)
    ∧ ((getAttribution sdk store env true false e3).result
        = ⟨.error, none, some ⟨.sdk_disabled, none⟩⟩
      ∧ (getAttribution sdk store env true false e3).netCalls = 0) := by
  constructor
  · constructor <;> simp [getAttribution, hconf, hc]
  · constructor <;>
      simp [getAttribution, hconf, hc, hchk, getCachedResult]

/-- Witness for the conforming part of C5. -/
theorem c5_disabled_entry_conforms_witness :
    (getAttribution (configuredState ⟨"app", "key", none, true, false, true⟩)
        emptyStore
        ⟨"u1", 5, ⟨.ios, none, none, none, none⟩, none, ⟨none, some .network, none⟩⟩
        false true true).result
      = ⟨.error, none, some ⟨.sdk_disabled, none⟩⟩ :=
  (c5_disabled_entry_conforms
    (configuredState ⟨"app", "key", none, true, false, true⟩) emptyStore
    ⟨"u1", 5, ⟨.ios, none, none, none, none⟩, none, ⟨none, some .network, none⟩⟩
    ⟨"app", "key", none, true, false, true⟩ true true
    (by decide) rfl (by decide)).1.1

/-
## Claim C10: payload present iff status matched
-/

/-- The public-result invariant: the attribution payload is present
exactly when the status is "matched". -/
def ResultWF (r : AttributionResult) : Prop :=
  r.attribution.isSome = true ↔ r.status = .matched

theorem translateCached_wf (c : CachedAttributionResult) :
    ResultWF (translateCached c) := by
  by_cases hm : c.matched = true
  · by_cases hs : c.attribution.isSome = true
    · simp [translateCached, hm, hs, ResultWF]
    · have hs2 : c.attribution.isSome = false := by simpa using hs
      simp [translateCached, hm, hs2, ResultWF]
  · have hm2 : c.matched = false := by simpa using hm
    simp [translateCached, hm2, ResultWF]

theorem classifyFind_wf (o : RequestResult) : ResultWF (classifyFind o).1 := by
  rcases hd : o.data with _ | resp
  · simp [classifyFind, hd, ResultWF]
  · rcases hm : resp.matched with _ | b
    · simp [classifyFind, hd, hm, ResultWF]
    · cases b
      · simp [classifyFind, hd, hm, ResultWF]
      · rcases ha : resp.attribution with _ | wa <;>
          simp [classifyFind, hd, hm, ha, ResultWF]

theorem fetchAttribution_wf (store : Store) (env : FetchEnv) (e3 : Bool) :
    ResultWF (fetchAttribution store env e3).1 := by
  by_cases h : e3 = false
  · simp [fetchAttribution, h, ResultWF]
  · simpa [fetchAttribution, h] using classifyFind_wf env.find

/-- C10: a durable record with matched = true but no payload is translated
to a "no_match" result with a null payload, and in general every result
getAttribution returns satisfies payload-present-iff-matched (given that
the in-memory cache, if populated, already satisfies it). -/
theorem c10_payload_iff_matched (sdk : SDKState) (store : Store)
    (env : FetchEnv) (e1 e2 e3 : Bool)
    (hwf : ∀ r, sdk.cachedAttributionResult = some r → ResultWF r) :
    ResultWF (getAttribution sdk store env e1 e2 e3).result
    ∧ (∀ (c : MobanaConfig) (t : Nat), sdk.isConfigured = true →
        sdk.config = some c → sdk.attributionChecked = false →
        e1 = true → e2 = true →
        store.attribution = some ⟨true, none, t⟩ →
        (getAttribution sdk store env e1 e2 e3).result
          = ⟨.no_match, none, none⟩) := by
  constructor
  · by_cases h1 : sdk.isConfigured = false ∨ sdk.config = none
    · simp [getAttribution, h1, ResultWF]
    · by_cases h2 : e1 = false
      · simp [getAttribution, h1, h2, ResultWF]
      · by_cases h3 : sdk.attributionChecked = true
        · cases hcr : sdk.cachedAttributionResult with
          | none => simp [getAttribution, h1, h2, h3, hcr, ResultWF]
          | some r => simpa [getAttribution, h1, h2, h3, hcr] using hwf r hcr
        · by_cases h4 : e2 = false
          · simp only [getAttribution, if_neg h1, if_neg h2]
            rw [if_neg h3]
            simp [h4, ResultWF]
          · cases hca : store.attribution with
            | some cr =>
                have := translateCached_wf cr
                simp only [getAttribution, if_neg h1, if_neg h2]
                rw [if_neg h3]
                simpa [h4, getCachedResult, hca] using this
            | none =>
                have := fetchAttribution_wf store env e3
                simp only [getAttribution, if_neg h1, if_neg h2]
                rw [if_neg h3]
                simpa [h4, getCachedResult, hca] using this
  · intro c t hconf hc hchk he1 he2 hca
    subst he1
    subst he2
    have h1 : ¬ (sdk.isConfigured = false ∨ sdk.config = none) := by
      simp [hconf, hc]
    simp only [getAttribution, if_neg h1]
    rw [if_neg (by simp)]
    rw [if_neg (by simp [hchk])]
    simp [getCachedResult, hca, translateCached]

/-- Witness for C10: an anomalous durable record (matched without
payload) yields a no_match result with null payload. -/
theorem c10_witness :
    ResultWF (getAttribution (configuredState ⟨"app", "key", none, true, false, true⟩)
        { emptyStore with attribution := some ⟨true, none, 4⟩ }
        ⟨"u1", 5, ⟨.ios, none, none, none, none⟩, none, ⟨none, some .network, none⟩⟩
        true true true).result
    ∧ (getAttribution (configuredState ⟨"app", "key", none, true, false, true⟩)
        { emptyStore with attribution := some ⟨true, none, 4⟩ }
        ⟨"u1", 5, ⟨.ios, none, none, none, none⟩, none, ⟨none, some .network, none⟩⟩
        true true true).result = ⟨.no_match, none, none⟩ := by
  have h := c10_payload_iff_matched
    (configuredState ⟨"app", "key", none, true, false, true⟩)
    { emptyStore with attribution := some ⟨true, none, 4⟩ }
    ⟨"u1", 5, ⟨.ios, none, none, none, none⟩, none, ⟨none, some .network, none⟩⟩
    true true true (by intro r hr; simp [configuredState] at hr)
  exact ⟨h.1, h.2 ⟨"app", "key", none, true, false, true⟩ 4 (by decide) rfl
    (by decide) rfl rfl rfl⟩

/-
## Claim C6: conversion queueing and flush
-/

/-- The entries of a queue whose send failed (ok i = false for the entry
at index i), in their original relative order. -/
def keepFailed (l : List ConversionEvent) (ok : Nat → Bool) (i : Nat) :
    List ConversionEvent :=
  match l with
  | [] => []
  | e :: es => if ok i then keepFailed es ok (i + 1) else e :: keepFailed es ok (i + 1)

theorem keepFailed_sublist (l : List ConversionEvent) (ok : Nat → Bool) (i : Nat) :
    List.Sublist (keepFailed l ok i) l := by
  induction l generalizing i with
  | nil => simp [keepFailed]
  | cons e es ih =>
      cases h : ok i with
      | true =>
          simp only [keepFailed, h, if_true]
          exact List.Sublist.cons e (ih (i + 1))
      | false =>
          simp only [keepFailed, h, if_false]
          exact List.Sublist.cons₂ e (ih (i + 1))

theorem zipRange_keepFailed (ok : Nat → Bool) (l : List ConversionEvent) (i : Nat) :
    ((l.zip ((List.range' i l.length).map ok)).filter (fun p => !p.2)).map
        (fun p => p.1)
      = keepFailed l ok i := by
  induction l generalizing i with
  | nil => rfl
  | cons e es ih =>
      simp only [List.length_cons, List.range'_succ, List.map_cons, List.zip_cons_cons,
        keepFailed]
      cases h : ok i with
      | true => simp [List.filter_cons, h, ih]
      | false => simp [List.filter_cons, h, ih]

theorem foldl_queueConversion (l : List ConversionEvent) (s : Store) :
    (l.foldl (fun s e => queueConversion s e) s).conversionQueue
      = s.conversionQueue ++ l := by
  induction l generalizing s with
  | nil => simp
  | cons e es ih =>
      rw [List.foldl_cons, ih]
      simp [queueConversion]

/-- C6: trackConversion on a configured, enabled coordinator never throws
(it is a total function); when the immediate send fails it appends the
event, carrying installId, name, value, timestamp and flowSessionId, to
the end of the durable queue (and appends nothing on success); a
subsequent flush leaves the durable queue containing exactly the entries
whose send failed, in their original relative order (a sublist: successes
removed, nothing duplicated), and a flush of an empty queue is a no-op. -/
theorem c6_conversion_queueing (sdk : SDKState) (store : Store)
    (env : TrackEnv) (c : MobanaConfig) (name : String) (value : Option ℚ)
    (fsid : Option String)
    (hconf : sdk.isConfigured = true) (hc : sdk.config = some c)
    (hen : c.enabled = true) :
    ((env.sendSuccess = false →
        (trackConversion sdk store env name value fsid).2.conversionQueue
          = store.conversionQueue
            ++ [⟨(getInstallId store env.uuid).1, name, value, env.now, fsid⟩])
      ∧ (env.sendSuccess = true →
        (trackConversion sdk store env name value fsid).2.conversionQueue
          = store.conversionQueue))
    ∧ (∀ (store2 : Store) (ok : Nat → Bool),
        (flushConversionQueue sdk store2 ok).conversionQueue
          = keepFailed store2.conversionQueue ok 0
        ∧ List.Sublist (keepFailed store2.conversionQueue ok 0)
            store2.conversionQueue
        ∧ (store2.conversionQueue = [] →
            flushConversionQueue sdk store2 ok = store2)) := by
  have hq2 := getInstallId_queue store env.uuid
  have hgate : ¬ (sdk.isConfigured = false ∨ sdk.config = none) := by
    simp [hconf, hc]
  have henb : enabledOf sdk = true := by simp [enabledOf, hc, hen]
  have hq := (getAttribution_frame sdk (getInstallId store env.uuid).2 env.attrEnv
    (enabledOf sdk) (enabledOf sdk) (enabledOf sdk)).2.2.1
  rw [henb] at hq
  constructor
  · constructor
    · intro hss
      simp only [trackConversion, if_neg hgate, henb]
      simp only [Bool.true_eq_false, if_false, hss, queueConversion]
      rw [hq, hq2]
      simp
    · intro hss
      simp only [trackConversion, if_neg hgate, henb]
      simp only [Bool.true_eq_false, if_false, hss, if_true]
      rw [hq, hq2]
  · intro store2 ok
    refine ⟨?_, keepFailed_sublist _ _ _, ?_⟩
    · by_cases hlen : (getConversionQueue store2).length = 0
      · have hnil : store2.conversionQueue = [] := by
          simpa [getConversionQueue] using List.length_eq_zero.mp hlen
        simp [flushConversionQueue, henb, getConversionQueue, hnil, keepFailed]
      · simp only [flushConversionQueue, henb, Bool.true_eq_false, if_false,
          if_neg hlen]
        rw [foldl_queueConversion]
        simp only [clearConversionQueue, List.nil_append]
        rw [getConversionQueue, List.range_eq_range', zipRange_keepFailed]
    · intro hnil
      simp [flushConversionQueue, henb, getConversionQueue, hnil]

/-- Witness for C6: a failed send queues the event; a flush that fails
the first entry and succeeds the second keeps only the first. -/
theorem c6_witness :
    (trackConversion (configuredState ⟨"app", "key", none, true, false, true⟩)
        emptyStore
        ⟨"u1", 11, ⟨"u1", 7, ⟨.ios, none, none, none, none⟩, none,
          ⟨none, some .network, none⟩⟩, false⟩
        "signup" none none).2.conversionQueue
      = [⟨"u1", "signup", none, 11, none⟩]
    ∧ (flushConversionQueue (configuredState ⟨"app", "key", none, true, false, true⟩)
        { emptyStore with conversionQueue :=
            [⟨"u1", "a", none, 1, none⟩, ⟨"u1", "b", none, 2, none⟩] }
        (fun i => i == 1)).conversionQueue
      = [⟨"u1", "a", none, 1, none⟩] := by
  have h := c6_conversion_queueing
    (configuredState ⟨"app", "key", none, true, false, true⟩) emptyStore
    ⟨"u1", 11, ⟨"u1", 7, ⟨.ios, none, none, none, none⟩, none,
      ⟨none, some .network, none⟩⟩, false⟩
    ⟨"app", "key", none, true, false, true⟩ "signup" none none
    (by decide) rfl (by decide)
  refine ⟨?_, ?_⟩
  · have h1 := h.1.1 rfl
    simpa using h1
  · have h2 := (h.2 { emptyStore with conversionQueue :=
      [⟨"u1", "a", none, 1, none⟩, ⟨"u1", "b", none, 2, none⟩] }
      (fun i => i == 1)).1
    rw [h2]
    decide

/-
## Claim C8: startFlow response classification and flow cache
-/

theorem getCachedFlow_congr (s1 s2 : Store) (slug : String)
    (h : s1.flows = s2.flows) :
    getCachedFlow s1 slug = getCachedFlow s2 slug := by
  simp [getCachedFlow, h]

theorem getCachedFlow_set (store : Store) (slug : String) (cfg : FlowConfig)
    (now : Nat) :
    getCachedFlow (setCachedFlow store slug cfg now) slug
      = some ⟨cfg.versionId, cfg.html, cfg.css, cfg.js, now⟩ := by
  simp [getCachedFlow, setCachedFlow, List.find?_cons]

/-- C8: on a configured, enabled coordinator with a mounted provider:
a failed fetch with a cached version presents the cached version; a
server-validated cached version is presented unchanged with the flow
cache untouched; fresh content is persisted for the slug and presented;
any other response shape yields SERVER_ERROR with nothing presented. -/
theorem c8_startFlow_classification (sdk : SDKState) (store : Store)
    (env : FlowEnv) (slug : String) (c : MobanaConfig)
    (hconf : sdk.isConfigured = true) (hc : sdk.config = some c)
    (hen : c.enabled = true) (hmnt : env.providerMounted = true) :
    (∀ cf : CachedFlow, env.response = none →
        getCachedFlow store slug = some cf →
        (startFlow sdk store env slug).result = env.presentOutcome
        ∧ (startFlow sdk store env slug).presented = some cf.toConfig
        ∧ (startFlow sdk store env slug).store.flows = store.flows)
    ∧ (∀ (resp : FlowFetchResponse) (cf : CachedFlow),
        env.response = some resp → strTruthy resp.error = false →
        optTruthy resp.cached = true →
        getCachedFlow store slug = some cf →
        (startFlow sdk store env slug).result = env.presentOutcome
        ∧ (startFlow sdk store env slug).presented = some cf.toConfig
        ∧ (startFlow sdk store env slug).store.flows = store.flows)
    ∧ (∀ resp : FlowFetchResponse,
        env.response = some resp → strTruthy resp.error = false →
        ¬ (optTruthy resp.cached = true
            ∧ (getCachedFlow store slug).isSome = true) →
        strTruthy resp.versionId = true → strTruthy resp.html = true →
        (startFlow sdk store env slug).result = env.presentOutcome
        ∧ (startFlow sdk store env slug).presented
            = some ⟨resp.versionId.getD "", resp.html.getD "", resp.css, resp.js⟩
        ∧ getCachedFlow (startFlow sdk store env slug).store slug
            = some ⟨resp.versionId.getD "", resp.html.getD "", resp.css, resp.js,
                env.now⟩)
    ∧ (∀ resp : FlowFetchResponse,
        env.response = some resp → strTruthy resp.error = false →
        ¬ (optTruthy resp.cached = true
            ∧ (getCachedFlow store slug).isSome = true) →
        ¬ (strTruthy resp.versionId = true ∧ strTruthy resp.html = true) →
        (startFlow sdk store env slug).result
            = ⟨false, true, some "SERVER_ERROR", none, none⟩
        ∧ (startFlow sdk store env slug).presented = none
        ∧ (startFlow sdk store env slug).store.flows = store.flows) := by
  have hgate : ¬ (sdk.isConfigured = false ∨ sdk.config = none) := by
    simp [hconf, hc]
  have henb : enabledOf sdk = true := by simp [enabledOf, hc, hen]
  have hfl0 := (getAttribution_frame sdk (getInstallId store env.uuid).2 env.attrEnv
    (enabledOf sdk) (enabledOf sdk) (enabledOf sdk)).2.2.2
  rw [henb] at hfl0
  have hfl : (getAttribution sdk (getInstallId store env.uuid).2 env.attrEnv
      true true true).store.flows = store.flows := by
    rw [hfl0, getInstallId_flows]
  have hcached : getCachedFlow (getAttribution sdk (getInstallId store env.uuid).2
      env.attrEnv true true true).store slug = getCachedFlow store slug :=
    getCachedFlow_congr _ _ slug hfl
  refine ⟨?_, ?_, ?_, ?_⟩
  · intro cf hresp hcf
    simp [startFlow, hgate, henb, hmnt, hresp, hcached, hcf, hfl]
  · intro resp cf hresp herr hcachedFlag hcf
    simp [startFlow, hgate, henb, hmnt, hresp, herr, hcached, hcf, hcachedFlag, hfl]
  · intro resp hresp herr hnc hv hh
    rcases hcf : getCachedFlow store slug with _ | cf
    · simp [startFlow, hgate, henb, hmnt, hresp, herr, hcached, hcf, hv, hh,
        getCachedFlow_set]
    · have hocf : optTruthy resp.cached = false := by
        cases hoc : optTruthy resp.cached with
        | false => rfl
        | true => exact absurd ⟨hoc, by simp [hcf]⟩ hnc
      simp [startFlow, hgate, henb, hmnt, hresp, herr, hcached, hcf, hocf, hv, hh,
        getCachedFlow_set]
  · intro resp hresp herr hnc hnv
    have hvh : (strTruthy resp.versionId && strTruthy resp.html) = false := by
      cases hv : strTruthy resp.versionId with
      | false => rfl
      | true =>
          cases hh : strTruthy resp.html with
          | false => rfl
          | true => exact absurd ⟨hv, hh⟩ hnv
    rcases hcf : getCachedFlow store slug with _ | cf
    · simp [startFlow, hgate, henb, hmnt, hresp, herr, hcached, hcf, hvh, hfl]
    · have hocf : optTruthy resp.cached = false := by
        cases hoc : optTruthy resp.cached with
        | false => rfl
        | true => exact absurd ⟨hoc, by simp [hcf]⟩ hnc
      simp [startFlow, hgate, henb, hmnt, hresp, herr, hcached, hcf, hocf, hvh, hfl]

/-- Witness for C8: fresh content from the server is cached and
presented. -/
theorem c8_witness :
    (startFlow (configuredState ⟨"app", "key", none, true, false, true⟩)
        emptyStore
        ⟨true, "u1", 9,
          ⟨"u1", 7, ⟨.ios, none, none, none, none⟩, none, ⟨none, some .network, none⟩⟩,
          some ⟨none, some "v2", some "<h1>hi</h1>", none, none, none⟩,
          ⟨true, false, none, none, some "sess"⟩⟩
        "onboarding").presented
      = some ⟨"v2", "<h1>hi</h1>", none, none⟩
    ∧ getCachedFlow (startFlow (configuredState ⟨"app", "key", none, true, false, true⟩)
        emptyStore
        ⟨true, "u1", 9,
          ⟨"u1", 7, ⟨.ios, none, none, none, none⟩, none, ⟨none, some .network, none⟩⟩,
          some ⟨none, some "v2", some "<h1>hi</h1>", none, none, none⟩,
          ⟨true, false, none, none, some "sess"⟩⟩
        "onboarding").store "onboarding"
      = some ⟨"v2", "<h1>hi</h1>", none, none, 9⟩ := by
  have h := (c8_startFlow_classification
    (configuredState ⟨"app", "key", none, true, false, true⟩) emptyStore
    ⟨true, "u1", 9,
      ⟨"u1", 7, ⟨.ios, none, none, none, none⟩, none, ⟨none, some .network, none⟩⟩,
      some ⟨none, some "v2", some "<h1>hi</h1>", none, none, none⟩,
      ⟨true, false, none, none, some "sess"⟩⟩
    "onboarding" ⟨"app", "key", none, true, false, true⟩
    (by decide) rfl (by decide) rfl).2.2.1
    ⟨none, some "v2", some "<h1>hi</h1>", none, none, none⟩
    rfl (by decide) (by simp [optTruthy]) (by decide) (by decide)
  exact ⟨h.2.1, h.2.2⟩

/-
## Claim C1: deduplication of concurrent getAttribution callers
-/

/-- Environment of the C1 counterexample run: the first network request
fails with a network error, a second request (which the claim says must
never happen) would succeed with a match. -/
def c1Env : MEnv :=
  ⟨"u1", 3, .ios, fun n =>
    if n = 0 then ⟨none, some .network, none⟩
    else ⟨some ⟨some true, some ⟨some "google", none, none, none, none, none, none⟩,
      some 1⟩, none, none⟩⟩

/-- C1 counterexample: two getAttribution callers both start (run their
synchronous entry and suspend at the durable-cache read) while no
definitive result is cached, no request has been issued and nothing has
resolved — the state after schedule prefix [0, 1].  The first caller then
runs to completion and its network request fails; only afterwards does
the scheduler deliver the second caller's durable-read resumption, which
finds no cached record and no in-flight promise (the first caller cleared
it), so the second caller issues a SECOND network request and finishes
with a different result.  This refutes the claim as stated: two callers
starting before the first resolution completes can observe two network
requests and different results (when the first resolution is an error). -/
theorem c1_counterexample :
    (mrun c1Env (initCfg emptyStore 2) [0, 1]).tasks = [.cacheRead, .cacheRead]
    ∧ (mrun c1Env (initCfg emptyStore 2) [0, 1]).shared.requests = 0
    ∧ (mrun c1Env (initCfg emptyStore 2) [0, 1]).shared.promises = []
    ∧ (mrun c1Env (initCfg emptyStore 2) [0, 1]).shared.store.attribution = none
    ∧ (mrun c1Env (initCfg emptyStore 2)
        [0, 1, 0, 0, 0, 0, 1, 1, 1, 1, 1]).shared.requests = 2
    ∧ (mrun c1Env (initCfg emptyStore 2)
        [0, 1, 0, 0, 0, 0, 1, 1, 1, 1, 1]).tasks
      = [.done ⟨.error, none, some ⟨.network, none⟩⟩,
          .done ⟨.matched,
            some ⟨⟨some "google", none, none, none, none, none, none⟩, 1⟩, none⟩] := by
  refine ⟨?_, ?_, ?_, ?_, ?_, ?_⟩ <;> decide

/-
### The amended deduplication theorem

When the single in-flight operation resolves definitively (matched or
no_match — the case the cache-forever policy is about), the deduplication
contract does hold under EVERY cooperative interleaving: at most one
network request is ever issued, every caller that finishes receives the
same result, and once all callers finished exactly one request was made.
The proof is a phase invariant on reachable configurations.
-/

/-- The durable record the single definitive resolution writes. -/
def recOf (env : MEnv) : Option CachedAttributionResult :=
  ((classifyFind (env.outcome 0)).2).map (fun w => ⟨w.1, w.2, env.now⟩)

/-- For a definitive outcome, the classification result is not an error
and translating the persisted record reproduces exactly the result every
caller must receive. -/
theorem classifyFind_definitive (o : RequestResult) (w : Bool × Option Attribution)
    (h : (classifyFind o).2 = some w) (t : Nat) :
    (classifyFind o).1.status ≠ .error
    ∧ translateCached ⟨w.1, w.2, t⟩ = (classifyFind o).1 := by
  rcases hd : o.data with _ | resp
  · simp [classifyFind, hd] at h
  · rcases hm : resp.matched with _ | b
    · simp [classifyFind, hd, hm] at h
    · cases b
      · simp [classifyFind, hd, hm] at h
        subst h
        constructor
        · simp [classifyFind, hd, hm]
        · simp [classifyFind, hd, hm, translateCached]
      · rcases ha : resp.attribution with _ | wa
        · simp [classifyFind, hd, hm, ha] at h
          subst h
          constructor
          · simp [classifyFind, hd, hm, ha]
          · simp [classifyFind, hd, hm, ha, translateCached]
        · simp [classifyFind, hd, hm, ha] at h
          subst h
          constructor
          · simp [classifyFind, hd, hm, ha]
          · simp [classifyFind, hd, hm, ha, translateCached]

/-- Task states a caller can be in before any promise exists. -/
def PassiveEarly (pc : TaskPC) : Prop :=
  pc = .entry ∨ pc = .cacheRead

/-- Task states of non-leading callers while the operation is pending. -/
def PassiveMid (pc : TaskPC) : Prop :=
  pc = .entry ∨ pc = .cacheRead ∨ pc = .follower 0

/-- Task states of non-leading callers once the operation has resolved
with result r. -/
def PassiveLate (r : AttributionResult) (pc : TaskPC) : Prop :=
  pc = .entry ∨ pc = .cacheRead ∨ pc = .follower 0 ∨ pc = .done r

/-- Every present task satisfies P. -/
def AllTasks (tasks : List TaskPC) (P : TaskPC → Prop) : Prop :=
  ∀ (j : Nat) (pc : TaskPC), tasks[j]? = some pc → P pc

/-- Every present task other than index i satisfies P. -/
def OthersAt (tasks : List TaskPC) (i : Nat) (P : TaskPC → Prop) : Prop :=
  ∀ (j : Nat) (pc : TaskPC), j ≠ i → tasks[j]? = some pc → P pc

theorem lt_of_getElem?_some {α : Type} {l : List α} {i : Nat} {a : α}
    (h : l[i]? = some a) : i < l.length := by
  by_contra hge
  rw [List.getElem?_eq_none (Nat.le_of_not_lt hge)] at h
  cases h

theorem AllTasks.set {tasks : List TaskPC} {P : TaskPC → Prop}
    (h : AllTasks tasks P) {x : TaskPC} (hx : P x) (i : Nat) :
    AllTasks (tasks.set i x) P := by
  intro j pc hj
  by_cases hij : i = j
  · rw [← hij] at hj
    by_cases hlt : i < tasks.length
    · rw [List.getElem?_set_self hlt] at hj
      cases hj
      exact hx
    · rw [List.set_eq_of_length_le (Nat.le_of_not_lt hlt)] at hj
      exact h i pc hj
  · rw [List.getElem?_set_ne hij] at hj
    exact h j pc hj

theorem OthersAt.set_other {tasks : List TaskPC} {i j : Nat} {P : TaskPC → Prop}
    (h : OthersAt tasks i P) (hj : j ≠ i) {x : TaskPC} (hx : P x) :
    OthersAt (tasks.set j x) i P := by
  intro k pc hk hget
  by_cases hjk : j = k
  · rw [← hjk] at hget hk
    by_cases hlt : j < tasks.length
    · rw [List.getElem?_set_self hlt] at hget
      cases hget
      exact hx
    · rw [List.set_eq_of_length_le (Nat.le_of_not_lt hlt)] at hget
      exact h j pc hk hget
  · rw [List.getElem?_set_ne hjk] at hget
    exact h k pc hk hget

theorem OthersAt.set_leader {tasks : List TaskPC} {i : Nat} {P : TaskPC → Prop}
    (h : OthersAt tasks i P) (x : TaskPC) :
    OthersAt (tasks.set i x) i P := by
  intro k pc hk hget
  rw [List.getElem?_set_ne (fun he => hk he.symm)] at hget
  exact h k pc hk hget

theorem OthersAt.of_all {tasks : List TaskPC} {P : TaskPC → Prop}
    (h : AllTasks tasks P) (i : Nat) : OthersAt tasks i P :=
  fun j pc _ hget => h j pc hget

theorem AllTasks.of_others {tasks : List TaskPC} {i : Nat} {P : TaskPC → Prop}
    (h : OthersAt tasks i P) {x : TaskPC} (hx : tasks[i]? = some x) (hpx : P x) :
    AllTasks tasks P := by
  intro j pc hget
  by_cases hij : j = i
  · subst hij
    rw [hx] at hget
    cases hget
    exact hpx
  · exact h j pc hij hget

/-- Shared state common to all phases: the coordinator is configured and
enabled throughout. -/
def SharedBase (s : MShared) : Prop :=
  s.isConfigured = true ∧ s.enabled = true

/-- Phase A: nothing started — no promise, no request, no definitive
state anywhere. -/
def SharedA (s : MShared) : Prop :=
  s.attributionPromise = none ∧ s.promises = [] ∧ s.requests = 0
  ∧ s.store.attribution = none ∧ s.attributionChecked = false

/-- Phases B: the single operation is pending (reqs = 0 before the
network call was issued, 1 after). -/
def SharedB (s : MShared) (reqs : Nat) : Prop :=
  s.attributionPromise = some 0 ∧ s.promises = [none] ∧ s.requests = reqs
  ∧ s.store.attribution = none ∧ s.attributionChecked = false

/-- Phase C: resolved and persisted, the creating caller has not yet run
its continuation (the promise field still holds the resolved promise).
The in-memory definitive cache may already be set by a caller that
resumed from the durable read after the persist. -/
def SharedC (env : MEnv) (s : MShared) : Prop :=
  s.attributionPromise = some 0 ∧ s.promises = [some (canonicalResult env)]
  ∧ s.requests = 1 ∧ s.store.attribution = recOf env
  ∧ (s.attributionChecked = false
      ∨ (s.attributionChecked = true
          ∧ s.cachedAttributionResult = some (canonicalResult env)))

/-- Phase D: the operation completed; in-memory and durable caches hold
the canonical result. -/
def SharedD (env : MEnv) (s : MShared) : Prop :=
  s.attributionPromise = none ∧ s.promises = [some (canonicalResult env)]
  ∧ s.requests = 1 ∧ s.store.attribution = recOf env
  ∧ s.attributionChecked = true
  ∧ s.cachedAttributionResult = some (canonicalResult env)

/-- The reachability invariant of the machine under a definitive
environment: one of six phases. -/
def MachineInv (env : MEnv) (c : MCfg) : Prop :=
  SharedBase c.shared ∧
  ((SharedA c.shared ∧ AllTasks c.tasks PassiveEarly)
  ∨ (∃ i : Nat, (c.tasks[i]? = some (.pipeInstall 0)
        ∨ c.tasks[i]? = some (.pipeReferrer 0))
      ∧ OthersAt c.tasks i PassiveMid ∧ SharedB c.shared 0)
  ∨ (∃ i : Nat, c.tasks[i]? = some (.pipeNet 0 0)
      ∧ OthersAt c.tasks i PassiveMid ∧ SharedB c.shared 1)
  ∨ (∃ (i : Nat) (w : Bool × Option Attribution),
      (classifyFind (env.outcome 0)).2 = some w
      ∧ c.tasks[i]? = some (.pipePersist 0 w (canonicalResult env))
      ∧ OthersAt c.tasks i PassiveMid ∧ SharedB c.shared 1)
  ∨ (∃ i : Nat, c.tasks[i]? = some (.leaderResume 0 (canonicalResult env))
      ∧ OthersAt c.tasks i (PassiveLate (canonicalResult env))
      ∧ SharedC env c.shared)
  ∨ (SharedD env c.shared ∧ AllTasks c.tasks (PassiveLate (canonicalResult env))))

/-
### stepTask equations
-/

theorem stepTask_entry_go (env : MEnv) (s : MShared)
    (h1 : s.isConfigured = true) (h2 : s.enabled = true)
    (h3 : s.attributionChecked = false) :
    stepTask env s .entry = (s, .cacheRead) := by
  simp [stepTask, h1, h2, h3]

theorem stepTask_entry_done (env : MEnv) (s : MShared) (r : AttributionResult)
    (h1 : s.isConfigured = true) (h2 : s.enabled = true)
    (h3 : s.attributionChecked = true)
    (h4 : s.cachedAttributionResult = some r) :
    stepTask env s .entry = (s, .done r) := by
  simp [stepTask, h1, h2, h3, h4]

theorem stepTask_cacheRead_leader (env : MEnv) (s : MShared)
    (h2 : s.enabled = true) (hattr : s.store.attribution = none)
    (hp : s.attributionPromise = none) :
    stepTask env s .cacheRead
      = ({ s with
             promises := s.promises ++ [none],
             attributionPromise := some s.promises.length },
          .pipeInstall s.promises.length) := by
  simp [stepTask, getCachedResult, hattr, h2, hp]

theorem stepTask_cacheRead_follower (env : MEnv) (s : MShared) (pid : Nat)
    (h2 : s.enabled = true) (hattr : s.store.attribution = none)
    (hp : s.attributionPromise = some pid) :
    stepTask env s .cacheRead = (s, .follower pid) := by
  simp [stepTask, getCachedResult, hattr, h2, hp]

theorem stepTask_cacheRead_hit (env : MEnv) (s : MShared)
    (rec : CachedAttributionResult)
    (h2 : s.enabled = true) (hattr : s.store.attribution = some rec) :
    stepTask env s .cacheRead
      = ({ s with
             attributionChecked := true,
             cachedAttribution := (translateCached rec).attribution,
             cachedAttributionResult := some (translateCached rec) },
          .done (translateCached rec)) := by
  simp [stepTask, getCachedResult, hattr, h2]

theorem stepTask_follower_pending (env : MEnv) (s : MShared) (pid : Nat)
    (h : s.promises.getD pid none = none) :
    stepTask env s (.follower pid) = (s, .follower pid) := by
  rw [List.getD_eq_getElem?_getD] at h
  simp [stepTask, h]

theorem stepTask_follower_done (env : MEnv) (s : MShared) (pid : Nat)
    (r : AttributionResult) (h : s.promises.getD pid none = some r) :
    stepTask env s (.follower pid) = (s, .done r) := by
  rw [List.getD_eq_getElem?_getD] at h
  simp [stepTask, h]

theorem stepTask_pipeInstall_ios (env : MEnv) (s : MShared) (pid : Nat)
    (hplat : env.platform = .ios) (h2 : s.enabled = true) :
    stepTask env s (.pipeInstall pid)
      = ({ s with
             store := (getInstallId s.store env.uuid).2,
             requests := s.requests + 1 },
          .pipeNet pid s.requests) := by
  simp [stepTask, hplat, h2]

theorem stepTask_pipeInstall_android (env : MEnv) (s : MShared) (pid : Nat)
    (hplat : env.platform = .android) :
    stepTask env s (.pipeInstall pid)
      = ({ s with store := (getInstallId s.store env.uuid).2 },
          .pipeReferrer pid) := by
  simp [stepTask, hplat]

theorem stepTask_pipeReferrer (env : MEnv) (s : MShared) (pid : Nat)
    (h2 : s.enabled = true) :
    stepTask env s (.pipeReferrer pid)
      = ({ s with requests := s.requests + 1 }, .pipeNet pid s.requests) := by
  simp [stepTask, h2]

theorem stepTask_pipeNet_definitive (env : MEnv) (s : MShared) (pid reqIdx : Nat)
    (w : Bool × Option Attribution)
    (hcls : (classifyFind (env.outcome reqIdx)).2 = some w) :
    stepTask env s (.pipeNet pid reqIdx)
      = (s, .pipePersist pid w (classifyFind (env.outcome reqIdx)).1) := by
  simp [stepTask, hcls]

theorem stepTask_pipePersist_eq (env : MEnv) (s : MShared) (pid : Nat)
    (w : Bool × Option Attribution) (r : AttributionResult) :
    stepTask env s (.pipePersist pid w r)
      = ({ s with
             store := setCachedResult s.store w.1 w.2 env.now,
             promises := resolvePromise s.promises pid r },
          .leaderResume pid r) := by
  simp [stepTask]

theorem stepTask_leaderResume_def (env : MEnv) (s : MShared) (pid : Nat)
    (r : AttributionResult) (h : ¬ r.status = .error) :
    stepTask env s (.leaderResume pid r)
      = ({ s with
             attributionPromise := none, attributionChecked := true,
             cachedAttribution := r.attribution,
             cachedAttributionResult := some r },
          .done r) := by
  simp [stepTask, h]

theorem stepTask_done (env : MEnv) (s : MShared) (r : AttributionResult) :
    stepTask env s (.done r) = (s, .done r) := by
  simp [stepTask]

theorem PassiveEarly.toMid {pc : TaskPC} (h : PassiveEarly pc) : PassiveMid pc := by
  rcases h with h | h
  · exact Or.inl h
  · exact Or.inr (Or.inl h)

theorem PassiveMid.toLate {pc : TaskPC} (r : AttributionResult)
    (h : PassiveMid pc) : PassiveLate r pc := by
  rcases h with h | h | h
  · exact Or.inl h
  · exact Or.inr (Or.inl h)
  · exact Or.inr (Or.inr (Or.inl h))

theorem machineInv_stepA (env : MEnv) (c : MCfg) (i : Nat)
    (hcfg : c.shared.isConfigured = true) (henb : c.shared.enabled = true)
    (hA : SharedA c.shared) (hall : AllTasks c.tasks PassiveEarly) :
    MachineInv env (mstep env c i) := by
  obtain ⟨hp, hps, hreq, hattr, hchk⟩ := hA
  cases hti : c.tasks[i]? with
  | none =>
      simp only [mstep, hti]
      exact ⟨⟨hcfg, henb⟩, Or.inl ⟨⟨hp, hps, hreq, hattr, hchk⟩, hall⟩⟩
  | some pc =>
      simp only [mstep, hti]
      rcases hall i pc hti with hpc | hpc
      · subst hpc
        rw [stepTask_entry_go env c.shared hcfg henb hchk]
        exact ⟨⟨hcfg, henb⟩, Or.inl ⟨⟨hp, hps, hreq, hattr, hchk⟩,
          hall.set (Or.inr rfl) i⟩⟩
      · subst hpc
        rw [stepTask_cacheRead_leader env c.shared henb hattr hp, hps]
        simp only [List.nil_append, List.length_nil]
        refine ⟨⟨hcfg, henb⟩, Or.inr (Or.inl ⟨i, ?_, ?_, ?_⟩)⟩
        · left
          rw [List.getElem?_set_self (lt_of_getElem?_some hti)]
        · exact (OthersAt.of_all (fun j pc2 hg => (hall j pc2 hg).toMid) i).set_leader _
        · exact ⟨rfl, rfl, hreq, hattr, hchk⟩

theorem translateCached_canonical (env : MEnv) (w0 : Bool × Option Attribution)
    (hdef : (classifyFind (env.outcome 0)).2 = some w0) :
    translateCached ⟨w0.1, w0.2, env.now⟩ = canonicalResult env := by
  unfold canonicalResult
  exact (classifyFind_definitive (env.outcome 0) w0 hdef env.now).2

theorem canonicalResult_not_error (env : MEnv) (w0 : Bool × Option Attribution)
    (hdef : (classifyFind (env.outcome 0)).2 = some w0) :
    ¬ (canonicalResult env).status = .error := by
  unfold canonicalResult
  exact (classifyFind_definitive (env.outcome 0) w0 hdef env.now).1

theorem recOf_eq (env : MEnv) (w0 : Bool × Option Attribution)
    (hdef : (classifyFind (env.outcome 0)).2 = some w0) :
    recOf env = some ⟨w0.1, w0.2, env.now⟩ := by
  simp [recOf, hdef]

/-- A non-leading task stepping while the operation is pending leaves the
shared state unchanged and stays passive. -/
theorem stepTask_passiveMid (env : MEnv) (s : MShared) (pc : TaskPC)
    (reqs : Nat) (hcfg : s.isConfigured = true) (henb : s.enabled = true)
    (hB : SharedB s reqs) (hpc : PassiveMid pc) :
    (stepTask env s pc).1 = s ∧ PassiveMid (stepTask env s pc).2 := by
  obtain ⟨hp, hps, hreq, hattr, hchk⟩ := hB
  rcases hpc with h | h | h <;> subst h
  · rw [stepTask_entry_go env s hcfg henb hchk]
    exact ⟨rfl, Or.inr (Or.inl rfl)⟩
  · rw [stepTask_cacheRead_follower env s 0 henb hattr hp]
    exact ⟨rfl, Or.inr (Or.inr rfl)⟩
  · rw [stepTask_follower_pending env s 0 (by rw [hps]; rfl)]
    exact ⟨rfl, Or.inr (Or.inr rfl)⟩

/-- A non-leading task stepping after resolution either leaves the shared
state unchanged or populates the in-memory definitive cache with the
canonical result; it always lands on a passive-late state. -/
theorem stepTask_passiveLate (env : MEnv) (w0 : Bool × Option Attribution)
    (hdef : (classifyFind (env.outcome 0)).2 = some w0)
    (s : MShared) (pc : TaskPC)
    (hcfg : s.isConfigured = true) (henb : s.enabled = true)
    (hps : s.promises = [some (canonicalResult env)])
    (hattr : s.store.attribution = recOf env)
    (hchk : s.attributionChecked = false
      ∨ (s.attributionChecked = true
          ∧ s.cachedAttributionResult = some (canonicalResult env)))
    (hpc : PassiveLate (canonicalResult env) pc) :
    ((stepTask env s pc).1 = s
      ∨ (stepTask env s pc).1
          = { s with
                attributionChecked := true,
                cachedAttribution := (canonicalResult env).attribution,
                cachedAttributionResult := some (canonicalResult env) })
    ∧ PassiveLate (canonicalResult env) (stepTask env s pc).2 := by
  have hrec := recOf_eq env w0 hdef
  have htr := translateCached_canonical env w0 hdef
  rcases hpc with h | h | h | h <;> subst h
  · rcases hchk with hchk | ⟨hchk, hcache⟩
    · rw [stepTask_entry_go env s hcfg henb hchk]
      exact ⟨Or.inl rfl, Or.inr (Or.inl rfl)⟩
    · rw [stepTask_entry_done env s _ hcfg henb hchk hcache]
      exact ⟨Or.inl rfl, Or.inr (Or.inr (Or.inr rfl))⟩
  · rw [stepTask_cacheRead_hit env s ⟨w0.1, w0.2, env.now⟩ henb
      (by rw [hattr, hrec])]
    rw [htr]
    exact ⟨Or.inr rfl, Or.inr (Or.inr (Or.inr rfl))⟩
  · rw [stepTask_follower_done env s 0 (canonicalResult env) (by rw [hps]; rfl)]
    exact ⟨Or.inl rfl, Or.inr (Or.inr (Or.inr rfl))⟩
  · rw [stepTask_done]
    exact ⟨Or.inl rfl, Or.inr (Or.inr (Or.inr rfl))⟩

theorem machineInv_stepB1 (env : MEnv) (c : MCfg) (i i0 : Nat)
    (hcfg : c.shared.isConfigured = true) (henb : c.shared.enabled = true)
    (hlead : c.tasks[i0]? = some (.pipeInstall 0)
      ∨ c.tasks[i0]? = some (.pipeReferrer 0))
    (hothers : OthersAt c.tasks i0 PassiveMid)
    (hB : SharedB c.shared 0) :
    MachineInv env (mstep env c i) := by
  cases hti : c.tasks[i]? with
  | none =>
      simp only [mstep, hti]
      exact ⟨⟨hcfg, henb⟩, Or.inr (Or.inl ⟨i0, hlead, hothers, hB⟩)⟩
  | some pc =>
      simp only [mstep, hti]
      by_cases hii : i = i0
      · subst hii
        obtain ⟨hp, hps, hreq, hattr, hchk⟩ := hB
        rcases hlead with hl | hl
        · obtain rfl : pc = .pipeInstall 0 := Option.some_inj.mp (hti.symm.trans hl)
          cases hplat : env.platform with
          | ios =>
              rw [stepTask_pipeInstall_ios env c.shared 0 hplat henb]
              refine ⟨⟨hcfg, henb⟩, Or.inr (Or.inr (Or.inl ⟨i, ?_, ?_, ?_⟩))⟩
              · rw [List.getElem?_set_self (lt_of_getElem?_some hti), hreq]
              · exact hothers.set_leader _
              · exact ⟨hp, hps, by rw [hreq],
                  by rw [getInstallId_attribution]; exact hattr, hchk⟩
          | android =>
              rw [stepTask_pipeInstall_android env c.shared 0 hplat]
              refine ⟨⟨hcfg, henb⟩, Or.inr (Or.inl ⟨i, Or.inr ?_,
                hothers.set_leader _, ?_⟩)⟩
              · rw [List.getElem?_set_self (lt_of_getElem?_some hti)]
              · exact ⟨hp, hps, hreq,
                  by rw [getInstallId_attribution]; exact hattr, hchk⟩
        · obtain rfl : pc = .pipeReferrer 0 := Option.some_inj.mp (hti.symm.trans hl)
          rw [stepTask_pipeReferrer env c.shared 0 henb]
          refine ⟨⟨hcfg, henb⟩, Or.inr (Or.inr (Or.inl ⟨i, ?_, ?_, ?_⟩))⟩
          · rw [List.getElem?_set_self (lt_of_getElem?_some hti), hreq]
          · exact hothers.set_leader _
          · exact ⟨hp, hps, by rw [hreq], hattr, hchk⟩
      · obtain ⟨hs1, hpc2⟩ := stepTask_passiveMid env c.shared pc 0 hcfg henb hB
          (hothers i pc hii hti)
        rw [hs1]
        have hl2 : (c.tasks.set i (stepTask env c.shared pc).2)[i0]?
            = c.tasks[i0]? := List.getElem?_set_ne hii
        exact ⟨⟨hcfg, henb⟩, Or.inr (Or.inl ⟨i0, hl2 ▸ hlead,
          hothers.set_other hii hpc2, hB⟩)⟩

theorem machineInv_stepB2 (env : MEnv) (w0 : Bool × Option Attribution)
    (hdef : (classifyFind (env.outcome 0)).2 = some w0)
    (c : MCfg) (i i0 : Nat)
    (hcfg : c.shared.isConfigured = true) (henb : c.shared.enabled = true)
    (hlead : c.tasks[i0]? = some (.pipeNet 0 0))
    (hothers : OthersAt c.tasks i0 PassiveMid)
    (hB : SharedB c.shared 1) :
    MachineInv env (mstep env c i) := by
  cases hti : c.tasks[i]? with
  | none =>
      simp only [mstep, hti]
      exact ⟨⟨hcfg, henb⟩, Or.inr (Or.inr (Or.inl ⟨i0, hlead, hothers, hB⟩))⟩
  | some pc =>
      simp only [mstep, hti]
      by_cases hii : i = i0
      · subst hii
        obtain rfl : pc = .pipeNet 0 0 := Option.some_inj.mp (hti.symm.trans hlead)
        rw [stepTask_pipeNet_definitive env c.shared 0 0 w0 hdef]
        refine ⟨⟨hcfg, henb⟩, Or.inr (Or.inr (Or.inr (Or.inl
          ⟨i, w0, hdef, ?_, ?_, ?_⟩)))⟩
        · rw [List.getElem?_set_self (lt_of_getElem?_some hti)]
          rfl
        · exact hothers.set_leader _
        · exact hB
      · obtain ⟨hs1, hpc2⟩ := stepTask_passiveMid env c.shared pc 1 hcfg henb hB
          (hothers i pc hii hti)
        rw [hs1]
        have hl2 : (c.tasks.set i (stepTask env c.shared pc).2)[i0]?
            = c.tasks[i0]? := List.getElem?_set_ne hii
        exact ⟨⟨hcfg, henb⟩, Or.inr (Or.inr (Or.inl ⟨i0, hl2 ▸ hlead,
          hothers.set_other hii hpc2, hB⟩))⟩

theorem machineInv_stepB3 (env : MEnv) (w0 : Bool × Option Attribution)
    (hdef : (classifyFind (env.outcome 0)).2 = some w0)
    (c : MCfg) (i i0 : Nat) (w : Bool × Option Attribution)
    (hcfg : c.shared.isConfigured = true) (henb : c.shared.enabled = true)
    (hw : (classifyFind (env.outcome 0)).2 = some w)
    (hlead : c.tasks[i0]? = some (.pipePersist 0 w (canonicalResult env)))
    (hothers : OthersAt c.tasks i0 PassiveMid)
    (hB : SharedB c.shared 1) :
    MachineInv env (mstep env c i) := by
  cases hti : c.tasks[i]? with
  | none =>
      simp only [mstep, hti]
      exact ⟨⟨hcfg, henb⟩, Or.inr (Or.inr (Or.inr (Or.inl
        ⟨i0, w, hw, hlead, hothers, hB⟩)))⟩
  | some pc =>
      simp only [mstep, hti]
      by_cases hii : i = i0
      · subst hii
        obtain rfl : pc = .pipePersist 0 w (canonicalResult env) :=
          Option.some_inj.mp (hti.symm.trans hlead)
        obtain ⟨hp, hps, hreq, hattr, hchk⟩ := hB
        rw [stepTask_pipePersist_eq env c.shared 0 w (canonicalResult env)]
        refine ⟨⟨hcfg, henb⟩, Or.inr (Or.inr (Or.inr (Or.inr (Or.inl
          ⟨i, ?_, ?_, ?_⟩))))⟩
        · rw [List.getElem?_set_self (lt_of_getElem?_some hti)]
        · intro j pc2 hj hget
          rw [List.getElem?_set_ne (fun he => hj he.symm)] at hget
          exact (hothers j pc2 hj hget).toLate _
        · refine ⟨hp, ?_, hreq, ?_, Or.inl hchk⟩
          · show resolvePromise c.shared.promises 0 (canonicalResult env)
              = [some (canonicalResult env)]
            rw [hps]
            rfl
          · show (setCachedResult c.shared.store w.1 w.2 env.now).attribution
              = recOf env
            rw [setCachedResult, recOf_eq env w0 hdef]
            have hww : w = w0 := Option.some_inj.mp (hw.symm.trans hdef)
            rw [hww]
      · obtain ⟨hs1, hpc2⟩ := stepTask_passiveMid env c.shared pc 1 hcfg henb hB
          (hothers i pc hii hti)
        rw [hs1]
        have hl2 : (c.tasks.set i (stepTask env c.shared pc).2)[i0]?
            = c.tasks[i0]? := List.getElem?_set_ne hii
        exact ⟨⟨hcfg, henb⟩, Or.inr (Or.inr (Or.inr (Or.inl
          ⟨i0, w, hw, hl2 ▸ hlead, hothers.set_other hii hpc2, hB⟩)))⟩

theorem machineInv_stepC (env : MEnv) (w0 : Bool × Option Attribution)
    (hdef : (classifyFind (env.outcome 0)).2 = some w0)
    (c : MCfg) (i i0 : Nat)
    (hcfg : c.shared.isConfigured = true) (henb : c.shared.enabled = true)
    (hlead : c.tasks[i0]? = some (.leaderResume 0 (canonicalResult env)))
    (hothers : OthersAt c.tasks i0 (PassiveLate (canonicalResult env)))
    (hC : SharedC env c.shared) :
    MachineInv env (mstep env c i) := by
  obtain ⟨hp, hps, hreq, hattr, hchk⟩ := hC
  cases hti : c.tasks[i]? with
  | none =>
      simp only [mstep, hti]
      exact ⟨⟨hcfg, henb⟩, Or.inr (Or.inr (Or.inr (Or.inr (Or.inl
        ⟨i0, hlead, hothers, hp, hps, hreq, hattr, hchk⟩))))⟩
  | some pc =>
      simp only [mstep, hti]
      by_cases hii : i = i0
      · subst hii
        obtain rfl : pc = .leaderResume 0 (canonicalResult env) :=
          Option.some_inj.mp (hti.symm.trans hlead)
        rw [stepTask_leaderResume_def env c.shared 0 (canonicalResult env)
          (canonicalResult_not_error env w0 hdef)]
        refine ⟨⟨hcfg, henb⟩, Or.inr (Or.inr (Or.inr (Or.inr (Or.inr
          ⟨⟨rfl, hps, hreq, hattr, rfl, rfl⟩, ?_⟩))))⟩
        refine AllTasks.of_others (hothers.set_leader _) ?_
          (Or.inr (Or.inr (Or.inr rfl)))
        rw [List.getElem?_set_self (lt_of_getElem?_some hti)]
      · obtain ⟨hs1, hpc2⟩ := stepTask_passiveLate env w0 hdef c.shared pc
          hcfg henb hps hattr hchk (hothers i pc hii hti)
        have hl2 : (c.tasks.set i (stepTask env c.shared pc).2)[i0]?
            = c.tasks[i0]? := List.getElem?_set_ne hii
        rcases hs1 with hs1 | hs1 <;> rw [hs1]
        · exact ⟨⟨hcfg, henb⟩, Or.inr (Or.inr (Or.inr (Or.inr (Or.inl
            ⟨i0, hl2 ▸ hlead, hothers.set_other hii hpc2,
              hp, hps, hreq, hattr, hchk⟩))))⟩
        · exact ⟨⟨hcfg, henb⟩, Or.inr (Or.inr (Or.inr (Or.inr (Or.inl
            ⟨i0, hl2 ▸ hlead, hothers.set_other hii hpc2,
              hp, hps, hreq, hattr, Or.inr ⟨rfl, rfl⟩⟩))))⟩

theorem machineInv_stepD (env : MEnv) (w0 : Bool × Option Attribution)
    (hdef : (classifyFind (env.outcome 0)).2 = some w0)
    (c : MCfg) (i : Nat)
    (hcfg : c.shared.isConfigured = true) (henb : c.shared.enabled = true)
    (hD : SharedD env c.shared)
    (hall : AllTasks c.tasks (PassiveLate (canonicalResult env))) :
    MachineInv env (mstep env c i) := by
  obtain ⟨hp, hps, hreq, hattr, hchk, hcache⟩ := hD
  cases hti : c.tasks[i]? with
  | none =>
      simp only [mstep, hti]
      exact ⟨⟨hcfg, henb⟩, Or.inr (Or.inr (Or.inr (Or.inr (Or.inr
        ⟨⟨hp, hps, hreq, hattr, hchk, hcache⟩, hall⟩))))⟩
  | some pc =>
      simp only [mstep, hti]
      obtain ⟨hs1, hpc2⟩ := stepTask_passiveLate env w0 hdef c.shared pc
        hcfg henb hps hattr (Or.inr ⟨hchk, hcache⟩) (hall i pc hti)
      rcases hs1 with hs1 | hs1 <;> rw [hs1]
      · exact ⟨⟨hcfg, henb⟩, Or.inr (Or.inr (Or.inr (Or.inr (Or.inr
          ⟨⟨hp, hps, hreq, hattr, hchk, hcache⟩, hall.set hpc2 i⟩))))⟩
      · exact ⟨⟨hcfg, henb⟩, Or.inr (Or.inr (Or.inr (Or.inr (Or.inr
          ⟨⟨hp, hps, hreq, hattr, rfl, rfl⟩, hall.set hpc2 i⟩))))⟩

/-- One scheduler step preserves the machine invariant. -/
theorem machineInv_step (env : MEnv) (w0 : Bool × Option Attribution)
    (hdef : (classifyFind (env.outcome 0)).2 = some w0)
    (c : MCfg) (h : MachineInv env c) (i : Nat) :
    MachineInv env (mstep env c i) := by
  obtain ⟨⟨hcfg, henb⟩, hphase⟩ := h
  rcases hphase with ⟨hA, hall⟩ | ⟨i0, hlead, hothers, hB⟩
    | ⟨i0, hlead, hothers, hB⟩ | ⟨i0, w, hw, hlead, hothers, hB⟩
    | ⟨i0, hlead, hothers, hC⟩ | ⟨hD, hall⟩
  · exact machineInv_stepA env c i hcfg henb hA hall
  · exact machineInv_stepB1 env c i i0 hcfg henb hlead hothers hB
  · exact machineInv_stepB2 env w0 hdef c i i0 hcfg henb hlead hothers hB
  · exact machineInv_stepB3 env w0 hdef c i i0 w hcfg henb hw hlead hothers hB
  · exact machineInv_stepC env w0 hdef c i i0 hcfg henb hlead hothers hC
  · exact machineInv_stepD env w0 hdef c i hcfg henb hD hall

/-- The invariant holds along every schedule. -/
theorem machineInv_run (env : MEnv) (w0 : Bool × Option Attribution)
    (hdef : (classifyFind (env.outcome 0)).2 = some w0)
    (c : MCfg) (h : MachineInv env c) (sched : List Nat) :
    MachineInv env (mrun env c sched) := by
  induction sched generalizing c with
  | nil => exact h
  | cons i rest ih =>
      exact ih (mstep env c i) (machineInv_step env w0 hdef c h i)

/-- The initial configuration satisfies the invariant. -/
theorem machineInv_init (env : MEnv) (store0 : Store) (n : Nat)
    (h0 : store0.attribution = none) :
    MachineInv env (initCfg store0 n) := by
  refine ⟨⟨rfl, rfl⟩, Or.inl ⟨⟨rfl, rfl, rfl, h0, rfl⟩, ?_⟩⟩
  intro j pc hget
  simp only [initCfg] at hget
  rw [List.getElem?_replicate] at hget
  by_cases hj : j < n
  · rw [if_pos hj] at hget
    cases hget
    exact Or.inl rfl
  · rw [if_neg hj] at hget
    cases hget

/-- mstep preserves the number of tasks. -/
theorem mstep_length (env : MEnv) (c : MCfg) (i : Nat) :
    (mstep env c i).tasks.length = c.tasks.length := by
  cases hti : c.tasks[i]? <;> simp [mstep, hti]

theorem mrun_length (env : MEnv) (c : MCfg) (sched : List Nat) :
    (mrun env c sched).tasks.length = c.tasks.length := by
  induction sched generalizing c with
  | nil => rfl
  | cons i rest ih => rw [mrun, List.foldl_cons, ← mrun, ih, mstep_length]

/-- What the invariant yields: at most one request ever; every finished
caller holds the canonical result; when every caller finished (and there
is at least one), exactly one request was made. -/
theorem machineInv_conclusions (env : MEnv) (c : MCfg)
    (h : MachineInv env c) :
    c.shared.requests ≤ 1
    ∧ (∀ (j : Nat) (r : AttributionResult),
        c.tasks[j]? = some (.done r) → r = canonicalResult env)
    ∧ ((∀ (j : Nat) (pc : TaskPC), c.tasks[j]? = some pc → ∃ r, pc = .done r) →
        0 < c.tasks.length → c.shared.requests = 1) := by
  obtain ⟨⟨hcfg, henb⟩, hphase⟩ := h
  rcases hphase with ⟨hA, hall⟩ | ⟨i0, hlead, hothers, hB⟩
    | ⟨i0, hlead, hothers, hB⟩ | ⟨i0, w, hw, hlead, hothers, hB⟩
    | ⟨i0, hlead, hothers, hC⟩ | ⟨hD, hall⟩
  · refine ⟨by rw [hA.2.2.1]; exact Nat.zero_le 1, ?_, ?_⟩
    · intro j r hget
      rcases hall j _ hget with hpc | hpc <;> exact TaskPC.noConfusion hpc
    · intro hdone hlen
      have h00 : c.tasks[0]? = some c.tasks[0] := List.getElem?_eq_getElem hlen
      obtain ⟨r, hr⟩ := hdone 0 _ h00
      rcases hall 0 _ h00 with hpc | hpc <;> rw [hr] at hpc <;>
        exact TaskPC.noConfusion hpc
  · refine ⟨by rw [hB.2.2.1]; exact Nat.zero_le 1, ?_, ?_⟩
    · intro j r hget
      by_cases hj : j = i0
      · rw [hj] at hget
        rcases hlead with hl | hl <;>
          exact TaskPC.noConfusion (Option.some_inj.mp (hget.symm.trans hl))
      · rcases hothers j _ hj hget with hpc | hpc | hpc <;>
          exact TaskPC.noConfusion hpc
    · intro hdone hlen
      rcases hlead with hl | hl <;>
        · obtain ⟨r, hr⟩ := hdone i0 _ hl
          exact TaskPC.noConfusion hr
  · refine ⟨by rw [hB.2.2.1], ?_, ?_⟩
    · intro j r hget
      by_cases hj : j = i0
      · rw [hj] at hget
        exact TaskPC.noConfusion (Option.some_inj.mp (hget.symm.trans hlead))
      · rcases hothers j _ hj hget with hpc | hpc | hpc <;>
          exact TaskPC.noConfusion hpc
    · intro hdone hlen
      obtain ⟨r, hr⟩ := hdone i0 _ hlead
      exact TaskPC.noConfusion hr
  · refine ⟨by rw [hB.2.2.1], ?_, ?_⟩
    · intro j r hget
      by_cases hj : j = i0
      · rw [hj] at hget
        exact TaskPC.noConfusion (Option.some_inj.mp (hget.symm.trans hlead))
      · rcases hothers j _ hj hget with hpc | hpc | hpc <;>
          exact TaskPC.noConfusion hpc
    · intro hdone hlen
      obtain ⟨r, hr⟩ := hdone i0 _ hlead
      exact TaskPC.noConfusion hr
  · refine ⟨by rw [hC.2.2.1], ?_, ?_⟩
    · intro j r hget
      by_cases hj : j = i0
      · rw [hj] at hget
        exact TaskPC.noConfusion (Option.some_inj.mp (hget.symm.trans hlead))
      · rcases hothers j _ hj hget with hpc | hpc | hpc | hpc
        · exact TaskPC.noConfusion hpc
        · exact TaskPC.noConfusion hpc
        · exact TaskPC.noConfusion hpc
        · exact TaskPC.done.inj hpc
    · intro hdone hlen
      obtain ⟨r, hr⟩ := hdone i0 _ hlead
      exact TaskPC.noConfusion hr
  · refine ⟨by rw [hD.2.2.1], ?_, fun _ _ => hD.2.2.1⟩
    intro j r hget
    rcases hall j _ hget with hpc | hpc | hpc | hpc
    · exact TaskPC.noConfusion hpc
    · exact TaskPC.noConfusion hpc
    · exact TaskPC.noConfusion hpc
    · exact TaskPC.done.inj hpc

/-- C1 (amended): on a configured, enabled coordinator with no definitive
result cached and no operation in flight, for every number n of
getAttribution callers and EVERY cooperative interleaving, provided the
single operation resolves definitively (matched or no_match), at most one
network attribution request is ever issued, every caller that completes
receives the same canonical result, and once all callers completed (with
n positive) exactly one network request was issued.  (The counterexample
above shows why the error case must be excluded: an error resolution is
deliberately not cached, so a caller resumed after it retries with a new
request.) -/
theorem c1_dedup_amended (env : MEnv) (store0 : Store) (n : Nat)
    (sched : List Nat) (w0 : Bool × Option Attribution)
    (hdef : (classifyFind (env.outcome 0)).2 = some w0)
    (h0 : store0.attribution = none) :
    (mrun env (initCfg store0 n) sched).shared.requests ≤ 1
    ∧ (∀ (j : Nat) (r : AttributionResult),
        (mrun env (initCfg store0 n) sched).tasks[j]? = some (.done r) →
        r = canonicalResult env)
    ∧ ((∀ (j : Nat) (pc : TaskPC),
          (mrun env (initCfg store0 n) sched).tasks[j]? = some pc →
          ∃ r, pc = .done r) → 0 < n →
        (mrun env (initCfg store0 n) sched).shared.requests = 1) := by
  have hInv := machineInv_run env w0 hdef _ (machineInv_init env store0 n h0) sched
  have hc := machineInv_conclusions env _ hInv
  refine ⟨hc.1, hc.2.1, fun hd hn => hc.2.2 hd ?_⟩
  rw [mrun_length]
  simpa [initCfg] using hn

/-- Witness for the amended C1: two callers, an unmatched definitive
outcome, the fully sequential schedule. -/
theorem c1_dedup_amended_witness :
    (mrun ⟨"u1", 3, .ios, fun _ => ⟨some ⟨some false, none, none⟩, none, none⟩⟩
        (initCfg emptyStore 2) [0, 0, 0, 0, 0, 0, 1]).shared.requests ≤ 1
    ∧ (∀ (j : Nat) (r : AttributionResult),
        (mrun ⟨"u1", 3, .ios, fun _ => ⟨some ⟨some false, none, none⟩, none, none⟩⟩
          (initCfg emptyStore 2) [0, 0, 0, 0, 0, 0, 1]).tasks[j]? = some (.done r) →
        r = canonicalResult
          ⟨"u1", 3, .ios, fun _ => ⟨some ⟨some false, none, none⟩, none, none⟩⟩)
    ∧ ((∀ (j : Nat) (pc : TaskPC),
          (mrun ⟨"u1", 3, .ios, fun _ => ⟨some ⟨some false, none, none⟩, none, none⟩⟩
            (initCfg emptyStore 2) [0, 0, 0, 0, 0, 0, 1]).tasks[j]? = some pc →
          ∃ r, pc = .done r) → 0 < 2 →
        (mrun ⟨"u1", 3, .ios, fun _ => ⟨some ⟨some false, none, none⟩, none, none⟩⟩
          (initCfg emptyStore 2) [0, 0, 0, 0, 0, 0, 1]).shared.requests = 1) :=
  c1_dedup_amended
    ⟨"u1", 3, .ios, fun _ => ⟨some ⟨some false, none, none⟩, none, none⟩⟩
    emptyStore 2 [0, 0, 0, 0, 0, 0, 1] (false, none) rfl rfl
